import Mathlib

/-!
Shallow embedding of the seat-analysis core calculators
(`DataCalculator`, `IndicatorCalculator`, `FilterService`) together with
proofs of the specification's claims about them.

Modelling conventions:
* JavaScript `Map` objects keyed by strings are insertion-ordered
  association structures; they are modelled by `jsMapFold`, an
  insertion-ordered association list built by update-in-place / append.
* `Array.prototype.sort` is required by the language to be stable; every
  stable sort for a total preorder comparator produces the same list, so it
  is modelled by the stable `List.insertionSort`.
* JS `Set` iteration/insertion order is first-occurrence order, modelled by
  `dedupF`.
* Prices are modelled as exact rationals, volumes and holdings as integers,
  dates as strings ordered lexicographically (the ISO `YYYY-MM-DD` format
  used throughout makes `localeCompare` agree with that order).
-/

namespace SeatAnalysis

/-- First-occurrence deduplication relative to an accumulator of keys
already seen: model of the contents of a JS `Set` filled by successive
`add` calls. -/
def dedupAux {α : Type*} [DecidableEq α] : List α → List α → List α
  | _, [] => []
  | seen, x :: xs => if x ∈ seen then dedupAux seen xs else x :: dedupAux (x :: seen) xs

/-- The distinct elements of `l`, each at its first occurrence, in order. -/
def dedupF {α : Type*} [DecidableEq α] (l : List α) : List α := dedupAux [] l

theorem mem_dedupAux {α : Type*} [DecidableEq α] (a : α) :
    ∀ (l seen : List α), a ∈ dedupAux seen l ↔ a ∈ l ∧ a ∉ seen
  | [], seen => by simp [dedupAux]
  | x :: xs, seen => by
    by_cases hx : x ∈ seen
    · rw [dedupAux, if_pos hx, mem_dedupAux a xs seen]
      constructor
      · rintro ⟨h1, h2⟩; exact ⟨List.mem_cons_of_mem _ h1, h2⟩
      · rintro ⟨h1, h2⟩
        rcases List.mem_cons.mp h1 with rfl | h1
        · exact absurd hx h2
        · exact ⟨h1, h2⟩
    · rw [dedupAux, if_neg hx]
      constructor
      · intro h
        rcases List.mem_cons.mp h with rfl | h
        · exact ⟨List.mem_cons_self a xs, hx⟩
        · obtain ⟨h1, h2⟩ := (mem_dedupAux a xs (x :: seen)).mp h
          exact ⟨List.mem_cons_of_mem _ h1, fun hs => h2 (List.mem_cons_of_mem _ hs)⟩
      · rintro ⟨h1, h2⟩
        rcases List.mem_cons.mp h1 with rfl | h1
        · exact List.mem_cons_self a _
        · by_cases hax : a = x
          · subst hax; exact List.mem_cons_self a _
          · refine List.mem_cons_of_mem _ ((mem_dedupAux a xs (x :: seen)).mpr ⟨h1, fun hs => ?_⟩)
            rcases List.mem_cons.mp hs with h | h
            · exact hax h
            · exact h2 h

theorem mem_dedupF {α : Type*} [DecidableEq α] {a : α} {l : List α} :
    a ∈ dedupF l ↔ a ∈ l := by
  rw [dedupF, mem_dedupAux]; simp

theorem nodup_dedupAux {α : Type*} [DecidableEq α] :
    ∀ (l seen : List α), (dedupAux seen l).Nodup
  | [], _ => by simp [dedupAux]
  | x :: xs, seen => by
    by_cases hx : x ∈ seen
    · rw [dedupAux, if_pos hx]; exact nodup_dedupAux xs seen
    · rw [dedupAux, if_neg hx]
      refine List.nodup_cons.mpr ⟨fun hmem => ?_, nodup_dedupAux xs (x :: seen)⟩
      exact ((mem_dedupAux x xs (x :: seen)).mp hmem).2 (List.mem_cons_self x seen)

theorem nodup_dedupF {α : Type*} [DecidableEq α] (l : List α) : (dedupF l).Nodup :=
  nodup_dedupAux l []

theorem dedupAux_eq_self {α : Type*} [DecidableEq α] :
    ∀ {l seen : List α}, l.Nodup → (∀ a ∈ l, a ∉ seen) → dedupAux seen l = l
  | [], _, _, _ => rfl
  | x :: xs, seen, hnd, hdisj => by
    have hx : x ∉ seen := hdisj x (List.mem_cons_self x xs)
    rw [dedupAux, if_neg hx]
    congr 1
    refine dedupAux_eq_self (List.nodup_cons.mp hnd).2 (fun a ha hmem => ?_)
    rcases List.mem_cons.mp hmem with rfl | hmem
    · exact (List.nodup_cons.mp hnd).1 ha
    · exact hdisj a (List.mem_cons_of_mem _ ha) hmem

theorem dedupF_eq_self {α : Type*} [DecidableEq α] {l : List α} (h : l.Nodup) :
    dedupF l = l :=
  dedupAux_eq_self h (by simp)

theorem dedupAux_append_single {α : Type*} [DecidableEq α] (k : α) :
    ∀ (l seen : List α), dedupAux seen (l ++ [k]) =
      dedupAux seen l ++ (if k ∈ seen ∨ k ∈ l then [] else [k])
  | [], seen => by
    by_cases hk : k ∈ seen <;> simp [dedupAux, hk]
  | x :: xs, seen => by
    by_cases hx : x ∈ seen
    · rw [List.cons_append, dedupAux, if_pos hx, dedupAux, if_pos hx,
        dedupAux_append_single k xs seen]
      by_cases hk : k ∈ seen ∨ k ∈ xs
      · rw [if_pos hk, if_pos]
        rcases hk with h | h
        · exact Or.inl h
        · exact Or.inr (List.mem_cons_of_mem _ h)
      · rw [if_neg hk, if_neg]
        rintro (h | h)
        · exact hk (Or.inl h)
        · rcases List.mem_cons.mp h with rfl | h
          · exact hk (Or.inl hx)
          · exact hk (Or.inr h)
    · rw [List.cons_append, dedupAux, if_neg hx, dedupAux, if_neg hx,
        dedupAux_append_single k xs (x :: seen), List.cons_append]
      by_cases hk : k ∈ x :: seen ∨ k ∈ xs
      · rw [if_pos hk, if_pos]
        rcases hk with h | h
        · rcases List.mem_cons.mp h with rfl | h
          · exact Or.inr (List.mem_cons_self k xs)
          · exact Or.inl h
        · exact Or.inr (List.mem_cons_of_mem _ h)
      · rw [if_neg hk, if_neg]
        rintro (h | h)
        · exact hk (Or.inl (List.mem_cons_of_mem _ h))
        · rcases List.mem_cons.mp h with rfl | h
          · exact hk (Or.inl (List.mem_cons_self k seen))
          · exact hk (Or.inr h)

theorem dedupF_append_single {α : Type*} [DecidableEq α] (l : List α) (k : α) :
    dedupF (l ++ [k]) = dedupF l ++ (if k ∈ l then [] else [k]) := by
  rw [dedupF, dedupAux_append_single, dedupF]
  by_cases hk : k ∈ l
  · rw [if_pos hk, if_pos (Or.inr hk)]
  · rw [if_neg hk, if_neg (by simp [hk])]

/-- Index of the first occurrence of `a` in a list (length of the list when
`a` is absent). -/
def idxOf' {α : Type*} [DecidableEq α] (a : α) : List α → Nat
  | [] => 0
  | x :: xs => if x = a then 0 else idxOf' a xs + 1

theorem pair_sublist_dedupAux {α : Type*} [DecidableEq α] {s t : α} :
    ∀ (l seen : List α), s ∉ seen → t ∉ seen → t ∈ l →
      idxOf' s l < idxOf' t l → List.Sublist [s, t] (dedupAux seen l)
  | [], _, _, _, htl, _ => absurd htl (List.not_mem_nil t)
  | x :: xs, seen, hs, ht, htl, hidx => by
    by_cases hxs : x = s
    · subst hxs
      have hxt : x ≠ t := by
        rintro rfl
        simp [idxOf'] at hidx
      rw [dedupAux, if_neg hs]
      refine List.Sublist.cons₂ x (List.singleton_sublist.mpr ?_)
      refine (mem_dedupAux t xs (x :: seen)).mpr ⟨?_, ?_⟩
      · rcases List.mem_cons.mp htl with rfl | h
        · exact absurd rfl hxt
        · exact h
      · intro hmem
        rcases List.mem_cons.mp hmem with rfl | h
        · exact hxt rfl
        · exact ht h
    · by_cases hxt : x = t
      · subst hxt
        have h0 : idxOf' x (x :: xs) = 0 := by rw [idxOf', if_pos rfl]
        rw [h0] at hidx
        exact absurd hidx (Nat.not_lt_zero _)
      · have htxs : t ∈ xs := by
          rcases List.mem_cons.mp htl with rfl | h
          · exact absurd rfl hxt
          · exact h
        have hidx' : idxOf' s xs < idxOf' t xs := by
          rw [idxOf', if_neg hxs, idxOf', if_neg hxt] at hidx
          exact Nat.lt_of_succ_lt_succ hidx
        by_cases hxseen : x ∈ seen
        · rw [dedupAux, if_pos hxseen]
          exact pair_sublist_dedupAux xs seen hs ht htxs hidx'
        · rw [dedupAux, if_neg hxseen]
          refine List.Sublist.cons x ?_
          refine pair_sublist_dedupAux xs (x :: seen) ?_ ?_ htxs hidx'
          · intro h
            rcases List.mem_cons.mp h with h | h
            · exact hxs h.symm
            · exact hs h
          · intro h
            rcases List.mem_cons.mp h with h | h
            · exact hxt h.symm
            · exact ht h

/-- Stability of first-occurrence deduplication: if `s` first occurs before
`t`, then `s` precedes `t` in the deduplicated list. -/
theorem pair_sublist_dedupF {α : Type*} [DecidableEq α] {s t : α} {l : List α}
    (ht : t ∈ l) (hidx : idxOf' s l < idxOf' t l) : List.Sublist [s, t] (dedupF l) :=
  pair_sublist_dedupAux l [] (List.not_mem_nil s) (List.not_mem_nil t) ht hidx

/-- One step of filling a JS `Map`: if the key is already present, the
stored value is updated in place (the entry keeps its position), otherwise
a fresh entry is appended at the end. -/
def jsMapStep {α κ γ : Type*} [DecidableEq κ] (key : α → κ) (ini : α → γ)
    (upd : γ → α → γ) (m : List (κ × γ)) (x : α) : List (κ × γ) :=
  if ∃ p ∈ m, p.1 = key x then
    m.map (fun p => if p.1 = key x then (p.1, upd p.2 x) else p)
  else m ++ [(key x, ini x)]

/-- Filling a JS `Map` from a list of items: each item either initialises
(`ini`) the entry of its key or updates (`upd`) the existing one.  Iterating
the resulting `Map` yields entries in key-insertion order. -/
def jsMapFold {α κ γ : Type*} [DecidableEq κ] (key : α → κ) (ini : α → γ)
    (upd : γ → α → γ) (l : List α) : List (κ × γ) :=
  l.foldl (jsMapStep key ini upd) []

/-- The value accumulated for one key's group of items. -/
def applyGroup {α γ : Type*} (ini : α → γ) (upd : γ → α → γ) (dflt : γ) :
    List α → γ
  | [] => dflt
  | x :: xs => xs.foldl upd (ini x)

theorem applyGroup_append_single {α γ : Type*} (ini : α → γ) (upd : γ → α → γ)
    (dflt : γ) {g : List α} (hg : g ≠ []) (x : α) :
    applyGroup ini upd dflt (g ++ [x]) = upd (applyGroup ini upd dflt g) x := by
  cases g with
  | nil => exact absurd rfl hg
  | cons y ys => simp [applyGroup, List.foldl_append]

/-- Closed form for the JS `Map` fold: one entry per distinct key in
first-occurrence order, holding the accumulated value of that key's items. -/
theorem jsMapFold_eq {α κ γ : Type*} [DecidableEq κ] (key : α → κ) (ini : α → γ)
    (upd : γ → α → γ) (dflt : γ) (l : List α) :
    jsMapFold key ini upd l =
      (dedupF (l.map key)).map
        (fun k => (k, applyGroup ini upd dflt (l.filter (fun x => key x = k)))) := by
  induction l using List.reverseRecOn with
  | nil => simp [jsMapFold, dedupF, dedupAux]
  | append_singleton l x ih =>
    rw [jsMapFold, List.foldl_append, List.foldl_cons, List.foldl_nil, ← jsMapFold, ih]
    rw [List.map_append, show List.map key [x] = [key x] from rfl, dedupF_append_single]
    by_cases hmem : key x ∈ l.map key
    · have hc : ∃ p ∈ (dedupF (l.map key)).map
          (fun k => (k, applyGroup ini upd dflt (l.filter (fun z => key z = k)))),
          p.1 = key x :=
        ⟨_, List.mem_map.mpr ⟨key x, mem_dedupF.mpr hmem, rfl⟩, rfl⟩
      rw [if_pos hmem, List.append_nil, jsMapStep, if_pos hc, List.map_map]
      refine List.map_congr_left (fun k hk => ?_)
      simp only [Function.comp_apply, List.filter_append]
      by_cases hkx : k = key x
      · subst hkx
        have hne : l.filter (fun z => key z = key x) ≠ [] := by
          obtain ⟨y, hy, hky⟩ := List.mem_map.mp hmem
          intro hnil
          rw [List.filter_eq_nil_iff] at hnil
          exact hnil y hy (by simp [hky])
        have hfx : List.filter (fun z => decide (key z = key x)) [x] = [x] := by simp
        simp [hfx, applyGroup_append_single ini upd dflt hne]
      · have hxk : ¬ key x = k := fun h => hkx h.symm
        have hfx : List.filter (fun z => decide (key z = k)) [x] = [] := by simp [hxk]
        simp [hkx, hfx]
    · have hc : ¬ ∃ p ∈ (dedupF (l.map key)).map
          (fun k => (k, applyGroup ini upd dflt (l.filter (fun z => key z = k)))),
          p.1 = key x := by
        rintro ⟨p, hp, hpk⟩
        obtain ⟨k, hk, rfl⟩ := List.mem_map.mp hp
        exact hmem (hpk ▸ mem_dedupF.mp hk)
      rw [if_neg hmem, jsMapStep, if_neg hc, List.map_append]
      congr 1
      · refine List.map_congr_left (fun k hk => ?_)
        have hxk : ¬ key x = k := by
          rintro rfl
          exact hmem (mem_dedupF.mp hk)
        have hfx : List.filter (fun z => decide (key z = k)) [x] = [] := by simp [hxk]
        simp only [List.filter_append, hfx, List.append_nil]
      · have hfil : l.filter (fun z => key z = key x) = [] := by
          rw [List.filter_eq_nil_iff]
          intro a ha
          simp only [decide_eq_true_eq]
          exact fun h => hmem (List.mem_map.mpr ⟨a, ha, h⟩)
        simp [hfil, applyGroup]

/-- When the keys of `l` are pairwise distinct, the group of `x`'s key is
just `[x]`. -/
theorem filter_key_eq_singleton {α κ : Type*} [DecidableEq κ] {key : α → κ}
    {l : List α} (h : (l.map key).Nodup) {x : α} (hx : x ∈ l) :
    l.filter (fun y => key y = key x) = [x] := by
  induction l with
  | nil => exact absurd hx (List.not_mem_nil x)
  | cons a as ih =>
    rw [List.map_cons, List.nodup_cons] at h
    rcases List.mem_cons.mp hx with rfl | hx'
    · rw [List.filter_cons, if_pos (by simp)]
      congr 1
      rw [List.filter_eq_nil_iff]
      intro b hb
      simp only [decide_eq_true_eq]
      exact fun hbx => h.1 (hbx ▸ List.mem_map.mpr ⟨b, hb, rfl⟩)
    · have hne : key a ≠ key x := by
        intro hcontra
        exact h.1 (hcontra ▸ List.mem_map.mpr ⟨x, hx', rfl⟩)
      rw [List.filter_cons, if_neg (by simp [hne])]
      exact ih h.2 hx'

/-! ## Data model

Embeddings of the TypeScript record interfaces (`src/types/index.ts`).
Only the fields consumed by the calculators under verification are kept.
The TS field `open` is rendered `open_` because `open` is a Lean keyword. -/

/-- 行情数据: one market record per (date, contract). -/
structure MarketRecord where
  trade_date : String
  contract_id : String
  secShortName : String
  open_ : ℚ
  high : ℚ
  low : ℚ
  close : ℚ
  settle : ℚ
  volume : Int
  open_interest : Int
  deriving DecidableEq, Inhabited

/-- 加权合约数据: the synthesized weighted-contract record. -/
structure WeightedContract where
  trade_date : String
  commodity_id : String
  commodity_name : String
  open_ : ℚ
  high : ℚ
  low : ℚ
  close : ℚ
  settle : ℚ
  volume : Int
  open_interest : Int
  deriving DecidableEq, Inhabited

/-- 席位持仓原始数据: one raw seat holding per (date, contract, seat). -/
structure RawHolding where
  id : Int
  trade_date : String
  contract_id : String
  secShortName : String
  seat_name : String
  long_vol : Int
  short_vol : Int
  long_chg : Int
  short_chg : Int
  deriving DecidableEq, Inhabited

/-- 席位分析数据: the per-(date, commodity, seat) summary. -/
structure SeatAnalysisData where
  trade_date : String
  commodity_id : String
  commodity_name : String
  seat_name : String
  long_vol : Int
  short_vol : Int
  long_chg : Int
  short_chg : Int
  net_vol : Int
  net_chg : Int
  deriving DecidableEq, Inhabited

/-- 实多空指标数据: one row of the Real long-short indicator series. -/
structure RealLSRow where
  trade_date : String
  real_long_10 : Int
  real_long_20 : Int
  real_long_all : Int
  real_short_10 : Int
  real_short_20 : Int
  real_short_all : Int
  real_diff_10 : Int
  real_diff_20 : Int
  real_diff_all : Int
  deriving DecidableEq, Inhabited

/-- 流多空指标数据: one row of the Flow long-short indicator series. -/
structure FlowRow where
  trade_date : String
  add_long_10 : Int
  add_long_20 : Int
  add_long_all : Int
  add_short_10 : Int
  add_short_20 : Int
  add_short_all : Int
  reduce_long_10 : Int
  reduce_long_20 : Int
  reduce_long_all : Int
  reduce_short_10 : Int
  reduce_short_20 : Int
  reduce_short_all : Int
  deriving DecidableEq, Inhabited

/-- Long/short kind tag of a pool entry in `calculateRealLongShort`. -/
inductive EntryType where
  | long : EntryType
  | short : EntryType
  deriving DecidableEq, Inhabited

/-- One item of the `combinedVolumes` pool in `calculateRealLongShort`. -/
structure PoolEntry where
  seat_name : String
  volume : Int
  type : EntryType
  net_vol : Int
  deriving DecidableEq, Inhabited

/-- One slice of a pie distribution (饼图数据 entries). -/
structure PieEntry where
  name : String
  value : ℚ
  ratio : ℚ
  deriving DecidableEq, Inhabited

/-- 多空分布: the aggregate long/short split of `generatePieChartData`. -/
structure LongShortSplit where
  net_long : Int
  net_short : Int
  long_ratio : ℚ
  short_ratio : ℚ
  deriving DecidableEq, Inhabited

/-- 饼图数据: the three distributions returned by `generatePieChartData`. -/
structure PieData where
  posDistribution : List PieEntry
  chgDistribution : List PieEntry
  longShortSplit : LongShortSplit
  deriving DecidableEq, Inhabited

/-- One entry of the position/settlement series fed to `calculateProfitLoss`. -/
structure PositionPrice where
  date : String
  netVol : Int
  settlePrice : ℚ
  deriving DecidableEq, Inhabited

/-- One settlement-price record of the price history used by
`convertToSeatTableData`. -/
structure DateSettle where
  date : String
  settlePrice : ℚ
  deriving DecidableEq, Inhabited

/-! ## Sort comparators

Each JS `Array.prototype.sort(cmp)` call is modelled by the stable
`List.insertionSort` along the total preorder induced by `cmp`. -/

/-- Comparator of `combinedVolumes.sort((a, b) => b.volume - a.volume)`:
descending by entry volume. -/
def volumeDesc (a b : PoolEntry) : Prop := b.volume ≤ a.volume

instance : DecidableRel volumeDesc :=
  fun a b => inferInstanceAs (Decidable (b.volume ≤ a.volume))

instance : IsTotal PoolEntry volumeDesc := ⟨fun a b => le_total b.volume a.volume⟩

instance : IsTrans PoolEntry volumeDesc := ⟨fun _ _ _ h1 h2 => le_trans h2 h1⟩

/-- Comparator of `sort((a, b) => Math.abs(b.net_vol) - Math.abs(a.net_vol))`:
descending by absolute net position. -/
def absNetDesc (a b : SeatAnalysisData) : Prop := |b.net_vol| ≤ |a.net_vol|

instance : DecidableRel absNetDesc :=
  fun a b => inferInstanceAs (Decidable (|b.net_vol| ≤ |a.net_vol|))

instance : IsTotal SeatAnalysisData absNetDesc := ⟨fun a b => le_total |b.net_vol| |a.net_vol|⟩

instance : IsTrans SeatAnalysisData absNetDesc := ⟨fun _ _ _ h1 h2 => le_trans h2 h1⟩

/-- Comparator of `sort((a, b) => Math.abs(b.net_chg) - Math.abs(a.net_chg))`:
descending by absolute net change. -/
def absChgDesc (a b : SeatAnalysisData) : Prop := |b.net_chg| ≤ |a.net_chg|

instance : DecidableRel absChgDesc :=
  fun a b => inferInstanceAs (Decidable (|b.net_chg| ≤ |a.net_chg|))

instance : IsTotal SeatAnalysisData absChgDesc := ⟨fun a b => le_total |b.net_chg| |a.net_chg|⟩

instance : IsTrans SeatAnalysisData absChgDesc := ⟨fun _ _ _ h1 h2 => le_trans h2 h1⟩

/-- Comparator of `sort((a, b) => a.trade_date.localeCompare(b.trade_date))`
on Real rows: ascending by date. -/
def dateAscReal (a b : RealLSRow) : Prop := a.trade_date ≤ b.trade_date

instance : DecidableRel dateAscReal :=
  fun a b => inferInstanceAs (Decidable (a.trade_date ≤ b.trade_date))

instance : IsTotal RealLSRow dateAscReal := ⟨fun a b => le_total a.trade_date b.trade_date⟩

instance : IsTrans RealLSRow dateAscReal := ⟨fun _ _ _ h1 h2 => le_trans h1 h2⟩

/-- Comparator of the final date sort of `calculateFlowLongShort`. -/
def dateAscFlow (a b : FlowRow) : Prop := a.trade_date ≤ b.trade_date

instance : DecidableRel dateAscFlow :=
  fun a b => inferInstanceAs (Decidable (a.trade_date ≤ b.trade_date))

instance : IsTotal FlowRow dateAscFlow := ⟨fun a b => le_total a.trade_date b.trade_date⟩

instance : IsTrans FlowRow dateAscFlow := ⟨fun _ _ _ h1 h2 => le_trans h1 h2⟩

/-! ## Shared helpers of `DataCalculator` -/

/-- `secShortName.replace(/\d+/g, '')`: remove every digit character. -/
def stripDigits (s : String) : String := String.mk (s.data.filter (fun c => !c.isDigit))

/-- `contract_id.startsWith(commodityId)`. -/
def startsWith (s p : String) : Bool := p.data.isPrefixOf s.data

/-- `Math.round(x * 100) / 100`: round to two decimal places
(`Math.round` is floor of `x + 1/2`, which is Mathlib's `round`). -/
def round2 (x : ℚ) : ℚ := (round (x * 100) : ℚ) / 100

/-! ## DataCalculator (`src/utils` weighted-contract / seat-analysis part) -/

/-- Accumulator object of the weighted-price `reduce` in
`calculateWeightedContract`. -/
structure PriceAcc where
  open_ : ℚ
  high : ℚ
  low : ℚ
  close : ℚ
  settle : ℚ
  deriving DecidableEq, Inhabited

/-- `DataCalculator.calculateWeightedContract`: synthesize one
open-interest-weighted record for (commodity, date), or `none` ("no
qualifying data") when no contract qualifies or total open interest is 0. -/
def calculateWeightedContract (marketData : List MarketRecord)
    (commodityId tradeDate : String) : Option WeightedContract :=
  let commodityContracts := marketData.filter (fun item =>
    item.trade_date = tradeDate ∧ startsWith item.contract_id commodityId ∧
      0 < item.open_interest)
  if commodityContracts = [] then none
  else
    let totalOpenInterest : Int := commodityContracts.foldl (fun sum item => sum + item.open_interest) 0
    let totalVolume : Int := commodityContracts.foldl (fun sum item => sum + item.volume) 0
    if totalOpenInterest = 0 then none
    else
      let weightedPrices := commodityContracts.foldl (fun acc item =>
        let weight := (item.open_interest : ℚ) / (totalOpenInterest : ℚ)
        { open_ := acc.open_ + item.open_ * weight
          high := acc.high + item.high * weight
          low := acc.low + item.low * weight
          close := acc.close + item.close * weight
          settle := acc.settle + item.settle * weight }) (⟨0, 0, 0, 0, 0⟩ : PriceAcc)
      let commodityName := stripDigits (commodityContracts.headD default).secShortName
      some {
        trade_date := tradeDate
        commodity_id := commodityId
        commodity_name := commodityName
        open_ := round2 weightedPrices.open_
        high := round2 weightedPrices.high
        low := round2 weightedPrices.low
        close := round2 weightedPrices.close
        settle := round2 weightedPrices.settle
        volume := totalVolume
        open_interest := totalOpenInterest }

/-- The fresh seat record created by `calculateSeatAnalysis` when a seat is
seen for the first time (`seatMap.set(item.seat_name, {...})`); the net
fields are left 0 and computed later. -/
def iniSeat (commodityId tradeDate : String) (item : RawHolding) : SeatAnalysisData :=
  { trade_date := tradeDate
    commodity_id := commodityId
    commodity_name := stripDigits item.secShortName
    seat_name := item.seat_name
    long_vol := item.long_vol
    short_vol := item.short_vol
    long_chg := item.long_chg
    short_chg := item.short_chg
    net_vol := 0
    net_chg := 0 }

/-- The in-place accumulation of `calculateSeatAnalysis` when a seat already
has a record (`existing.long_vol += item.long_vol; ...`). -/
def updSeat (existing : SeatAnalysisData) (item : RawHolding) : SeatAnalysisData :=
  { existing with
    long_vol := existing.long_vol + item.long_vol
    short_vol := existing.short_vol + item.short_vol
    long_chg := existing.long_chg + item.long_chg
    short_chg := existing.short_chg + item.short_chg }

/-- `DataCalculator.calculateSeatAnalysis`: aggregate the raw holdings of one
(commodity, date) by seat (a JS `Map` keyed by seat name, fields summed in
place), compute each seat's net position/change, and sort by absolute net
position descending (stable). -/
def calculateSeatAnalysis (holdingData : List RawHolding)
    (commodityId tradeDate : String) : List SeatAnalysisData :=
  let commodityHoldings := holdingData.filter (fun item =>
    item.trade_date = tradeDate ∧ startsWith item.contract_id commodityId)
  if commodityHoldings = [] then []
  else
    let seatMap := jsMapFold (fun item => item.seat_name)
      (iniSeat commodityId tradeDate) updSeat commodityHoldings
    let seatAnalysisData := (seatMap.map (fun p => p.2)).map (fun item =>
      { item with
        net_vol := item.long_vol - item.short_vol
        net_chg := item.long_chg - item.short_chg })
    List.insertionSort absNetDesc seatAnalysisData

/-! ## IndicatorCalculator (`src/services/calculationService.ts`) -/

/-- The `combinedVolumes` pool of `calculateRealLongShort`: each seat
contributes its long volume and its short volume as two separate entries. -/
def combinedVolumes (dayData : List SeatAnalysisData) : List PoolEntry :=
  (dayData.map (fun seat =>
    [⟨seat.seat_name, seat.long_vol, EntryType.long, seat.net_vol⟩,
     ⟨seat.seat_name, seat.short_vol, EntryType.short, seat.net_vol⟩])).flatten

/-- The per-date body of `calculateRealLongShort` (the `calculateForTopN`
closure applied at breadths 10, 20 and all). -/
def realDayRow (tradeDate : String) (dayData : List SeatAnalysisData) : RealLSRow :=
  let sorted := List.insertionSort volumeDesc (combinedVolumes dayData)
  let calcForTopN : Option Nat → Int × Int × Int := fun n =>
    let selectedItems := match n with
      | some k => sorted.take k
      | none => sorted
    let involvedSeats := dedupF (selectedItems.map (fun item => item.seat_name))
    let seatNetPositions := jsMapFold (fun seat => seat.seat_name)
      (fun seat => seat.net_vol) (fun _ seat => seat.net_vol)
      (dayData.filter (fun seat => seat.seat_name ∈ involvedSeats))
    let acc := seatNetPositions.foldl (fun acc p =>
      if 0 < p.2 then (acc.1 + p.2, acc.2)
      else if p.2 < 0 then (acc.1, acc.2 + |p.2|)
      else acc) ((0 : Int), (0 : Int))
    (acc.1, acc.2, acc.1 - acc.2)
  let result10 := calcForTopN (some 10)
  let result20 := calcForTopN (some 20)
  let resultAll := calcForTopN none
  { trade_date := tradeDate
    real_long_10 := result10.1
    real_long_20 := result20.1
    real_long_all := resultAll.1
    real_short_10 := result10.2.1
    real_short_20 := result20.2.1
    real_short_all := resultAll.2.1
    real_diff_10 := result10.2.2
    real_diff_20 := result20.2.2
    real_diff_all := resultAll.2.2 }

/-- `IndicatorCalculator.calculateRealLongShort`: group the input by trading
date (JS `Map` insertion order), compute the Real indicator per date at each
breadth, and sort the rows ascending by date. -/
def calculateRealLongShort (seatData : List SeatAnalysisData) : List RealLSRow :=
  let dateGroups := jsMapFold (fun item => item.trade_date)
    (fun item => [item]) (fun g item => g ++ [item]) seatData
  let results := dateGroups.map (fun g => realDayRow g.1 g.2)
  List.insertionSort dateAscReal results

/-- The per-date body of `calculateFlowLongShort` (its `calculateForTopN`
closure applied at breadths 10, 20 and all). -/
def flowDayRow (tradeDate : String) (dayData : List SeatAnalysisData) : FlowRow :=
  let sortedSeats := List.insertionSort absNetDesc dayData
  let calcForTopN : Option Nat → Int × Int × Int × Int := fun n =>
    let selectedSeats := match n with
      | some k => sortedSeats.take k
      | none => sortedSeats
    let addLong := (selectedSeats.filter (fun seat => 0 < seat.net_vol ∧ 0 < seat.net_chg)).foldl
      (fun sum seat => sum + seat.net_vol) 0
    let addShort := |(selectedSeats.filter (fun seat => seat.net_vol < 0 ∧ seat.net_chg < 0)).foldl
      (fun sum seat => sum + seat.net_vol) 0|
    let reduceLong := -((selectedSeats.filter (fun seat => 0 < seat.net_vol ∧ seat.net_chg < 0)).foldl
      (fun sum seat => sum + seat.net_vol) 0)
    let reduceShort := (selectedSeats.filter (fun seat => seat.net_vol < 0 ∧ 0 < seat.net_chg)).foldl
      (fun sum seat => sum + seat.net_vol) 0
    (addLong, addShort, reduceLong, reduceShort)
  let result10 := calcForTopN (some 10)
  let result20 := calcForTopN (some 20)
  let resultAll := calcForTopN none
  { trade_date := tradeDate
    add_long_10 := result10.1
    add_long_20 := result20.1
    add_long_all := resultAll.1
    add_short_10 := result10.2.1
    add_short_20 := result20.2.1
    add_short_all := resultAll.2.1
    reduce_long_10 := result10.2.2.1
    reduce_long_20 := result20.2.2.1
    reduce_long_all := resultAll.2.2.1
    reduce_short_10 := result10.2.2.2
    reduce_short_20 := result20.2.2.2
    reduce_short_all := resultAll.2.2.2 }

/-- `IndicatorCalculator.calculateFlowLongShort`: group by trading date,
compute the Flow indicator per date at each breadth, and sort ascending by
date. -/
def calculateFlowLongShort (seatData : List SeatAnalysisData) : List FlowRow :=
  let dateGroups := jsMapFold (fun item => item.trade_date)
    (fun item => [item]) (fun g item => g ++ [item]) seatData
  let results := dateGroups.map (fun g => flowDayRow g.1 g.2)
  List.insertionSort dateAscFlow results

/-- `IndicatorCalculator.calculateProfitLoss`: sum the daily P&L
`(netVol_i * settle_i - netVol_(i-1) * settle_(i-1)) * contractUnit` for
`i` from `startIndex + 1` to the last index, where
`startIndex = max(0, endIndex - period + 1)`, and round to an integer. -/
def calculateProfitLoss (positions : List PositionPrice) (contractUnit : ℚ)
    (period : Nat) : Int :=
  if positions.length < 2 then 0
  else
    let endIndex := positions.length - 1
    let startIndex := (max 0 ((endIndex : Int) - (period : Int) + 1)).toNat
    let dailyProfit : Nat → ℚ := fun i =>
      let today := positions.getD i default
      let yesterday := positions.getD (i - 1) default
      ((today.netVol : ℚ) * today.settlePrice -
        (yesterday.netVol : ℚ) * yesterday.settlePrice) * contractUnit
    let totalProfit := (List.range' (startIndex + 1) (endIndex - startIndex)).foldl
      (fun acc i => acc + dailyProfit i) 0
    round totalProfit

/-- The position/settlement series built inside
`IndicatorCalculator.convertToSeatTableData` for one seat: match each
history row with the settlement price of its date (`0` when absent), then
keep only rows with a positive settlement price.  `seatHistory` is the
seat's summaries already sorted ascending by date. -/
def buildPositionPriceData (seatHistory : List SeatAnalysisData)
    (priceData : List DateSettle) : List PositionPrice :=
  (seatHistory.map (fun item =>
    let priceInfo := priceData.find? (fun p => p.date = item.trade_date)
    ({ date := item.trade_date
       netVol := item.net_vol
       settlePrice := (priceInfo.map (fun p => p.settlePrice)).getD 0 } : PositionPrice)))
  |>.filter (fun item => 0 < item.settlePrice)

/-- `IndicatorCalculator.generatePieChartData`: the position distribution
(top 10 by absolute net position plus an "其他" consolidation bucket), the
change distribution (top 10 nonzero absolute net changes), and the
aggregate long/short split, with sub-1% ratios filtered from the two
distributions. -/
def generatePieChartData (seatData : List SeatAnalysisData) (tradeDate : String) : PieData :=
  let dayData := seatData.filter (fun item => item.trade_date = tradeDate)
  let sortedByNetVol := List.insertionSort absNetDesc dayData
  let top10Seats := sortedByNetVol.take 10
  let otherSeats := sortedByNetVol.drop 10
  let posBase := top10Seats.map (fun seat =>
    ({ name := seat.seat_name, value := (|seat.net_vol| : ℚ), ratio := 0 } : PieEntry))
  let posBase2 :=
    if otherSeats ≠ [] then
      let otherTotal := otherSeats.foldl (fun sum seat => sum + (|seat.net_vol| : ℚ)) 0
      if 0 < otherTotal then
        posBase ++ [{ name := "其他", value := otherTotal, ratio := 0 }]
      else posBase
    else posBase
  let totalHolding := posBase2.foldl (fun sum item => sum + item.value) 0
  let posDist := posBase2.map (fun item =>
    { item with ratio := if 0 < totalHolding then item.value / totalHolding * 100 else 0 })
  let sortedByNetChg := List.insertionSort absChgDesc dayData
  let chgBase := ((sortedByNetChg.filter (fun seat => seat.net_chg ≠ 0)).take 10).map
    (fun seat => ({ name := seat.seat_name, value := (|seat.net_chg| : ℚ), ratio := 0 } : PieEntry))
  let totalChange := chgBase.foldl (fun sum item => sum + item.value) 0
  let chgDist := chgBase.map (fun item =>
    { item with ratio := if 0 < totalChange then item.value / totalChange * 100 else 0 })
  let netLong : Int := (dayData.filter (fun seat => 0 < seat.net_vol)).foldl
    (fun sum seat => sum + seat.net_vol) 0
  let netShort : Int := |(dayData.filter (fun seat => seat.net_vol < 0)).foldl
    (fun sum seat => sum + seat.net_vol) 0|
  let totalNet := netLong + netShort
  { posDistribution := posDist.filter (fun item => 1 ≤ item.ratio)
    chgDistribution := chgDist.filter (fun item => 1 ≤ item.ratio)
    longShortSplit := {
      net_long := netLong
      net_short := netShort
      long_ratio := if 0 < totalNet then (netLong : ℚ) / (totalNet : ℚ) * 100 else 50
      short_ratio := if 0 < totalNet then (netShort : ℚ) / (totalNet : ℚ) * 100 else 50 } }

/-! ## FilterService (`src/services/filterService.ts`) -/

/-- 净多空指标数据: one row of the Net long-short indicator series
(only consumed here through `FilterService`). -/
structure NetLSRow where
  trade_date : String
  net_long_10 : Int
  net_long_20 : Int
  net_long_all : Int
  net_short_10 : Int
  net_short_20 : Int
  net_short_all : Int
  net_diff_10 : Int
  net_diff_20 : Int
  net_diff_all : Int
  deriving DecidableEq, Inhabited

/-- Breadth selector `10 | 20 | 'all'`. -/
inductive Breadth where
  | b10 : Breadth
  | b20 : Breadth
  | ball : Breadth
  deriving DecidableEq, Inhabited

/-- Look-back length selector `5 | 8 | 13 | 21`. -/
inductive LookbackDays where
  | d5 : LookbackDays
  | d8 : LookbackDays
  | d13 : LookbackDays
  | d21 : LookbackDays
  deriving DecidableEq, Inhabited

def LookbackDays.toNat : LookbackDays → Nat
  | .d5 => 5
  | .d8 => 8
  | .d13 => 13
  | .d21 => 21

/-- `'highest' | 'lowest'` selector of the price condition. -/
inductive PriceType where
  | highest : PriceType
  | lowest : PriceType
  deriving DecidableEq, Inhabited

/-- `'max' | 'min'` selector of the extremum conditions. -/
inductive MaxMin where
  | maxT : MaxMin
  | minT : MaxMin
  deriving DecidableEq, Inhabited

/-- `'greater' | 'less'` operator of the comparison conditions. -/
inductive CompareOp where
  | greater : CompareOp
  | less : CompareOp
  deriving DecidableEq, Inhabited

/-- 筛选条件类型: the condition tags recorded in `match_conditions`. -/
inductive CondType where
  | priceCondition : CondType
  | realCompare : CondType
  | netCompare : CondType
  | realExtreme : CondType
  | realDiffExtreme : CondType
  | netExtreme : CondType
  | netDiffExtreme : CondType
  deriving DecidableEq, Inhabited

/-- 收盘价条件 parameters. -/
structure PriceCondParams where
  enabled : Bool
  days : LookbackDays
  type : PriceType
  deriving DecidableEq, Inhabited

/-- 实多空比较 / 净多空比较 parameters. -/
structure CompareCondParams where
  enabled : Bool
  longPeriod : Breadth
  shortPeriod : Breadth
  operator : CompareOp
  deriving DecidableEq, Inhabited

/-- Extremum condition parameters (实多极值 … 净差极值). -/
structure ExtremeCondParams where
  enabled : Bool
  period : Breadth
  days : LookbackDays
  type : MaxMin
  deriving DecidableEq, Inhabited

/-- 筛选参数: the nine independently-toggleable condition specs. -/
structure FilterParams where
  priceCond : PriceCondParams
  realCompare : CompareCondParams
  netCompare : CompareCondParams
  realLongExtreme : ExtremeCondParams
  realShortExtreme : ExtremeCondParams
  realDiffExtreme : ExtremeCondParams
  netLongExtreme : ExtremeCondParams
  netShortExtreme : ExtremeCondParams
  netDiffExtreme : ExtremeCondParams
  deriving DecidableEq, Inhabited

/-- The materialized data `FilterService` pulls from `dataService`
(`getAllWeightedContracts`, `getRealLongShortData`,
`getNetLongShortData`). -/
structure FilterEnv where
  weightedContracts : List WeightedContract
  realData : String → List RealLSRow
  netData : String → List NetLSRow

/-- 筛选结果: one screening match. -/
structure FilterResult where
  commodity_id : String
  commodity_name : String
  match_conditions : List CondType
  score : Nat
  deriving DecidableEq, Inhabited

/-- `getValueByPeriod(data, 'real_long', period)`. -/
def realLongAt (d : RealLSRow) : Breadth → Int
  | .b10 => d.real_long_10
  | .b20 => d.real_long_20
  | .ball => d.real_long_all

/-- `getValueByPeriod(data, 'real_short', period)`. -/
def realShortAt (d : RealLSRow) : Breadth → Int
  | .b10 => d.real_short_10
  | .b20 => d.real_short_20
  | .ball => d.real_short_all

/-- `getValueByPeriod(data, 'real_diff', period)`. -/
def realDiffAt (d : RealLSRow) : Breadth → Int
  | .b10 => d.real_diff_10
  | .b20 => d.real_diff_20
  | .ball => d.real_diff_all

/-- `getValueByPeriod(data, 'net_long', period)`. -/
def netLongAt (d : NetLSRow) : Breadth → Int
  | .b10 => d.net_long_10
  | .b20 => d.net_long_20
  | .ball => d.net_long_all

/-- `getValueByPeriod(data, 'net_short', period)`. -/
def netShortAt (d : NetLSRow) : Breadth → Int
  | .b10 => d.net_short_10
  | .b20 => d.net_short_20
  | .ball => d.net_short_all

/-- `getValueByPeriod(data, 'net_diff', period)`. -/
def netDiffAt (d : NetLSRow) : Breadth → Int
  | .b10 => d.net_diff_10
  | .b20 => d.net_diff_20
  | .ball => d.net_diff_all

/-- `Math.max(...l)` over a nonempty list (`dflt` stands in for the empty
case, which never arises in the guarded uses below). -/
def listMax {α : Type*} [LinearOrder α] (dflt : α) (l : List α) : α :=
  l.foldl max (l.headD dflt)

/-- `Math.min(...l)` over a nonempty list. -/
def listMin {α : Type*} [LinearOrder α] (dflt : α) (l : List α) : α :=
  l.foldl min (l.headD dflt)

/-- `FilterService.checkPriceCondition`: is the newest close an extremum of
the last `days` closes?  `contracts` is already sorted by date descending;
returns `false` when fewer than `days` records exist. -/
def checkPriceCondition (contracts : List WeightedContract) (days : LookbackDays)
    (ty : PriceType) : Bool :=
  if contracts.length < days.toNat then false
  else
    let recentContracts := contracts.take days.toNat
    let prices := recentContracts.map (fun item => item.close)
    let currentPrice := (contracts.headD default).close
    match ty with
    | .highest => decide (currentPrice = listMax 0 prices)
    | .lowest => decide (currentPrice = listMin 0 prices)

/-- `FilterService.checkRealLongShortCompare`: compare the latest
real-long value at one breadth against the latest real-short value at
another. -/
def checkRealLongShortCompare (env : FilterEnv) (commodityId : String)
    (longPeriod shortPeriod : Breadth) (op : CompareOp) : Bool :=
  let realData := env.realData commodityId
  if realData = [] then false
  else
    let latestData := realData.headD default
    let longValue := realLongAt latestData longPeriod
    let shortValue := realShortAt latestData shortPeriod
    match op with
    | .greater => decide (shortValue < longValue)
    | .less => decide (longValue < shortValue)

/-- `FilterService.checkNetLongShortCompare`. -/
def checkNetLongShortCompare (env : FilterEnv) (commodityId : String)
    (longPeriod shortPeriod : Breadth) (op : CompareOp) : Bool :=
  let netData := env.netData commodityId
  if netData = [] then false
  else
    let latestData := netData.headD default
    let longValue := netLongAt latestData longPeriod
    let shortValue := netShortAt latestData shortPeriod
    match op with
    | .greater => decide (shortValue < longValue)
    | .less => decide (longValue < shortValue)

/-- The six extremum-condition keys (实多极值, 实空极值, 实差极值, 净多极值,
净空极值, 净差极值), capturing the data source and field selected by the
`includes('实')/includes('多')/…` dispatch of `checkExtremeCondition`. -/
inductive ExtremeKey where
  | realLongK : ExtremeKey
  | realShortK : ExtremeKey
  | realDiffK : ExtremeKey
  | netLongK : ExtremeKey
  | netShortK : ExtremeKey
  | netDiffK : ExtremeKey
  deriving DecidableEq, Inhabited

/-- Length of the indicator series selected by an extremum key. -/
def extremeDataLen (env : FilterEnv) (commodityId : String) : ExtremeKey → Nat
  | .realLongK | .realShortK | .realDiffK => (env.realData commodityId).length
  | .netLongK | .netShortK | .netDiffK => (env.netData commodityId).length

/-- The last `days` values (newest first) of the indicator series selected
by an extremum key at the given breadth. -/
def extremeValues (env : FilterEnv) (commodityId : String) (days : LookbackDays)
    (period : Breadth) : ExtremeKey → List Int
  | .realLongK => ((env.realData commodityId).take days.toNat).map (fun d => realLongAt d period)
  | .realShortK => ((env.realData commodityId).take days.toNat).map (fun d => realShortAt d period)
  | .realDiffK => ((env.realData commodityId).take days.toNat).map (fun d => realDiffAt d period)
  | .netLongK => ((env.netData commodityId).take days.toNat).map (fun d => netLongAt d period)
  | .netShortK => ((env.netData commodityId).take days.toNat).map (fun d => netShortAt d period)
  | .netDiffK => ((env.netData commodityId).take days.toNat).map (fun d => netDiffAt d period)

/-- `FilterService.checkExtremeCondition`: is the latest value of the
selected indicator series an extremum of its last `days` values?  Returns
`false` when the series has fewer than `days` rows. -/
def checkExtremeCondition (env : FilterEnv) (commodityId : String)
    (key : ExtremeKey) (period : Breadth) (days : LookbackDays) (ty : MaxMin) : Bool :=
  if extremeDataLen env commodityId key < days.toNat then false
  else
    let values := extremeValues env commodityId days period key
    let currentValue := values.headD 0
    match ty with
    | .maxT => decide (currentValue = listMax 0 values)
    | .minT => decide (currentValue = listMin 0 values)

/-- The nine condition slots of `executeFilter` for one commodity, in
evaluation order: (condition holds and is enabled, recorded tag, weight). -/
def condList (env : FilterEnv) (params : FilterParams) (commodityId : String)
    (sortedContracts : List WeightedContract) : List (Bool × CondType × Nat) :=
  [(params.priceCond.enabled &&
      checkPriceCondition sortedContracts params.priceCond.days params.priceCond.type,
    CondType.priceCondition, 10),
   (params.realCompare.enabled &&
      checkRealLongShortCompare env commodityId params.realCompare.longPeriod
        params.realCompare.shortPeriod params.realCompare.operator,
    CondType.realCompare, 15),
   (params.netCompare.enabled &&
      checkNetLongShortCompare env commodityId params.netCompare.longPeriod
        params.netCompare.shortPeriod params.netCompare.operator,
    CondType.netCompare, 15),
   (params.realLongExtreme.enabled &&
      checkExtremeCondition env commodityId .realLongK params.realLongExtreme.period
        params.realLongExtreme.days params.realLongExtreme.type,
    CondType.realExtreme, 12),
   (params.realShortExtreme.enabled &&
      checkExtremeCondition env commodityId .realShortK params.realShortExtreme.period
        params.realShortExtreme.days params.realShortExtreme.type,
    CondType.realExtreme, 12),
   (params.realDiffExtreme.enabled &&
      checkExtremeCondition env commodityId .realDiffK params.realDiffExtreme.period
        params.realDiffExtreme.days params.realDiffExtreme.type,
    CondType.realDiffExtreme, 12),
   (params.netLongExtreme.enabled &&
      checkExtremeCondition env commodityId .netLongK params.netLongExtreme.period
        params.netLongExtreme.days params.netLongExtreme.type,
    CondType.netExtreme, 12),
   (params.netShortExtreme.enabled &&
      checkExtremeCondition env commodityId .netShortK params.netShortExtreme.period
        params.netShortExtreme.days params.netShortExtreme.type,
    CondType.netExtreme, 12),
   (params.netDiffExtreme.enabled &&
      checkExtremeCondition env commodityId .netDiffK params.netDiffExtreme.period
        params.netDiffExtreme.days params.netDiffExtreme.type,
    CondType.netDiffExtreme, 12)]

/-- The `matchConditions` / `score` accumulation of `executeFilter` for one
commodity: each satisfied enabled condition appends its tag and adds its
weight. -/
def evalCommodity (env : FilterEnv) (params : FilterParams) (commodityId : String)
    (sortedContracts : List WeightedContract) : List CondType × Nat :=
  (condList env params commodityId sortedContracts).foldl
    (fun acc c => if c.1 then (acc.1 ++ [c.2.1], acc.2 + c.2.2) else acc) ([], 0)

/-- Comparator of `commodityContracts.sort((a, b) =>
b.trade_date.localeCompare(a.trade_date))`: descending by date. -/
def dateDescWC (a b : WeightedContract) : Prop := b.trade_date ≤ a.trade_date

instance : DecidableRel dateDescWC :=
  fun a b => inferInstanceAs (Decidable (b.trade_date ≤ a.trade_date))

instance : IsTotal WeightedContract dateDescWC := ⟨fun a b => le_total b.trade_date a.trade_date⟩

instance : IsTrans WeightedContract dateDescWC := ⟨fun _ _ _ h1 h2 => le_trans h2 h1⟩

/-- Comparator of `results.sort((a, b) => b.score - a.score)`: descending by
score. -/
def scoreDesc (a b : FilterResult) : Prop := b.score ≤ a.score

instance : DecidableRel scoreDesc :=
  fun a b => inferInstanceAs (Decidable (b.score ≤ a.score))

instance : IsTotal FilterResult scoreDesc := ⟨fun a b => le_total b.score a.score⟩

instance : IsTrans FilterResult scoreDesc := ⟨fun _ _ _ h1 h2 => le_trans h2 h1⟩

/-- `FilterService.executeFilter`: evaluate every enabled condition for each
distinct commodity of the weighted-contract table, keep commodities with at
least one match, and sort the results by score descending. -/
def executeFilter (env : FilterEnv) (params : FilterParams) : List FilterResult :=
  let commodityIds := dedupF (env.weightedContracts.map (fun item => item.commodity_id))
  let results := commodityIds.foldl (fun results commodityId =>
    let commodityContracts := env.weightedContracts.filter
      (fun item => item.commodity_id = commodityId)
    if commodityContracts = [] then results
    else
      let sorted := List.insertionSort dateDescWC commodityContracts
      let mc := evalCommodity env params commodityId sorted
      if mc.1 ≠ [] then
        results ++ [{
          commodity_id := commodityId
          commodity_name := (sorted.headD default).commodity_name
          match_conditions := mc.1
          score := mc.2 }]
      else results) []
  List.insertionSort scoreDesc results

/-! ## Generic lemmas about the embedded iteration patterns -/

theorem foldl_add_map {α M : Type*} [AddCommMonoid M] (f : α → M) :
    ∀ (l : List α) (a : M), l.foldl (fun s x => s + f x) a = a + (l.map f).sum
  | [], a => by simp
  | x :: xs, a => by
    rw [List.foldl_cons, foldl_add_map f xs (a + f x), List.map_cons, List.sum_cons, add_assoc]

theorem intCast_list_sum (f : α → Int) :
    ∀ l : List α, (((l.map f).sum : Int) : ℚ) = (l.map (fun x => ((f x : Int) : ℚ))).sum
  | [] => by simp
  | x :: xs => by
    rw [List.map_cons, List.sum_cons, Int.cast_add, intCast_list_sum f xs, List.map_cons,
      List.sum_cons]

theorem foldl_push_singleton {α : Type*} :
    ∀ (xs acc : List α), xs.foldl (fun acc y => acc ++ [y]) acc = acc ++ xs
  | [], acc => by simp
  | x :: xs, acc => by
    rw [List.foldl_cons, foldl_push_singleton xs (acc ++ [x]), List.append_assoc,
      List.singleton_append]

/-- Grouping values with `ini x = [x]`, `upd g x = g ++ [x]` reproduces the
group itself. -/
theorem applyGroup_push {α : Type*} (g : List α) :
    applyGroup (fun x => [x]) (fun acc x => acc ++ [x]) [] g = g := by
  cases g with
  | nil => rfl
  | cons x xs =>
    show xs.foldl (fun acc y => acc ++ [y]) [x] = x :: xs
    rw [foldl_push_singleton xs [x], List.singleton_append]

/-- Closed form of the date-grouping `Map` of the indicator calculators:
one group per distinct date, in first-occurrence order, holding that date's
rows in input order. -/
theorem dateGroups_eq (seatData : List SeatAnalysisData) :
    jsMapFold (fun item => item.trade_date) (fun item => [item])
      (fun g item => g ++ [item]) seatData =
    (dedupF (seatData.map (fun item => item.trade_date))).map
      (fun d => (d, seatData.filter (fun item => item.trade_date = d))) := by
  rw [jsMapFold_eq (fun item => item.trade_date) (fun item => [item])
    (fun g item => g ++ [item]) [] seatData]
  exact List.map_congr_left (fun d _ => by rw [applyGroup_push])

/-- A JS `Map` fold over items with pairwise-distinct keys never updates:
each key holds its item's initial value. -/
theorem jsMapFold_of_nodup {α κ γ : Type*} [DecidableEq κ] [Inhabited γ]
    (key : α → κ) (ini : α → γ) (upd : γ → α → γ) {l : List α}
    (h : (l.map key).Nodup) :
    jsMapFold key ini upd l = l.map (fun x => (key x, ini x)) := by
  rw [jsMapFold_eq key ini upd default l, dedupF_eq_self h, List.map_map]
  refine List.map_congr_left (fun x hx => ?_)
  simp only [Function.comp_apply]
  rw [filter_key_eq_singleton h hx]
  rfl

/-- Closed form of the two-bucket accumulation loop of
`calculateRealLongShort`: positives summed into the first component,
absolute values of negatives into the second. -/
theorem realAcc_eq :
    ∀ (entries : List (String × Int)) (a b : Int),
      entries.foldl (fun acc p =>
        if 0 < p.2 then (acc.1 + p.2, acc.2)
        else if p.2 < 0 then (acc.1, acc.2 + |p.2|)
        else acc) (a, b) =
      (a + ((entries.map (fun p => p.2)).filter (fun v => 0 < v)).sum,
       b + (((entries.map (fun p => p.2)).filter (fun v => v < 0)).map (fun v => |v|)).sum)
  | [], a, b => by simp
  | p :: ps, a, b => by
    rw [List.foldl_cons, List.map_cons]
    rcases lt_trichotomy 0 p.2 with hpos | hzero | hneg
    · rw [if_pos hpos, realAcc_eq ps (a + p.2) b,
        List.filter_cons_of_pos (by simpa using hpos),
        List.filter_cons_of_neg (by simp only [decide_eq_true_eq, not_lt]; omega),
        List.sum_cons]
      simp [Prod.mk.injEq, add_assoc]
    · rw [if_neg (by omega), if_neg (by omega), realAcc_eq ps a b,
        List.filter_cons_of_neg (by simp only [decide_eq_true_eq, not_lt]; omega),
        List.filter_cons_of_neg (by simp only [decide_eq_true_eq, not_lt]; omega)]
    · rw [if_neg (by omega), if_pos hneg, realAcc_eq ps a (b + |p.2|),
        List.filter_cons_of_neg (by simp only [decide_eq_true_eq, not_lt]; omega),
        List.filter_cons_of_pos (by simpa using hneg),
        List.map_cons, List.sum_cons]
      simp [Prod.mk.injEq, add_assoc]

/-- Closed form of the matched-conditions/score accumulation loop of
`executeFilter`. -/
theorem evalList_eq :
    ∀ (cs : List (Bool × CondType × Nat)) (acc : List CondType × Nat),
      cs.foldl (fun acc c => if c.1 then (acc.1 ++ [c.2.1], acc.2 + c.2.2) else acc) acc =
      (acc.1 ++ (cs.filter (fun c => c.1)).map (fun c => c.2.1),
       acc.2 + ((cs.filter (fun c => c.1)).map (fun c => c.2.2)).sum)
  | [], acc => by simp
  | c :: cs, acc => by
    rw [List.foldl_cons]
    by_cases hc : c.1
    · rw [if_pos hc, evalList_eq cs (acc.1 ++ [c.2.1], acc.2 + c.2.2),
        List.filter_cons_of_pos hc]
      simp [Prod.mk.injEq, add_assoc]
    · rw [if_neg hc, evalList_eq cs acc,
        List.filter_cons_of_neg (by simpa using hc)]

theorem sum_range'_telescope (f : Nat → ℚ) :
    ∀ (m s : Nat), ((List.range' (s + 1) m).map (fun i => f i - f (i - 1))).sum = f (s + m) - f s
  | 0, s => by simp
  | m + 1, s => by
    rw [List.range'_succ, List.map_cons, List.sum_cons, sum_range'_telescope f m (s + 1)]
    have h1 : s + 1 - 1 = s := by omega
    have h2 : s + 1 + m = s + (m + 1) := by omega
    rw [h1, h2]
    ring

theorem sum_map_abs_of_nonpos :
    ∀ {l : List Int}, (∀ v ∈ l, v ≤ 0) → (l.map (fun v => |v|)).sum = -l.sum
  | [], _ => by simp
  | v :: vs, h => by
    rw [List.map_cons, List.sum_cons, List.sum_cons,
      sum_map_abs_of_nonpos (fun x hx => h x (List.mem_cons_of_mem _ hx)),
      abs_of_nonpos (h v (List.mem_cons_self v vs))]
    ring

theorem sum_map_neg {α : Type*} (f : α → Int) :
    ∀ l : List α, (l.map (fun x => -f x)).sum = -(l.map f).sum
  | [] => by simp
  | x :: xs => by
    rw [List.map_cons, List.sum_cons, sum_map_neg f xs, List.map_cons, List.sum_cons]
    ring

/-- Closed form of repeated in-place accumulation of one seat's holdings. -/
theorem foldl_updSeat :
    ∀ (xs : List RawHolding) (acc : SeatAnalysisData),
      xs.foldl updSeat acc = { acc with
        long_vol := acc.long_vol + (xs.map (fun i => i.long_vol)).sum
        short_vol := acc.short_vol + (xs.map (fun i => i.short_vol)).sum
        long_chg := acc.long_chg + (xs.map (fun i => i.long_chg)).sum
        short_chg := acc.short_chg + (xs.map (fun i => i.short_chg)).sum }
  | [], acc => by simp
  | x :: xs, acc => by
    rw [List.foldl_cons, foldl_updSeat xs (updSeat acc x)]
    simp [updSeat, add_assoc]

/-- Rows of one trading date have pairwise-distinct seat names whenever the
whole input is keyed by (date, seat). -/
theorem names_nodup_of_key_nodup {l : List SeatAnalysisData}
    (h : (l.map (fun s => (s.trade_date, s.seat_name))).Nodup) (d : String) :
    ((l.filter (fun s => s.trade_date = d)).map (fun s => s.seat_name)).Nodup := by
  have hsub : List.Sublist
      ((l.filter (fun s => s.trade_date = d)).map (fun s => (s.trade_date, s.seat_name)))
      (l.map (fun s => (s.trade_date, s.seat_name))) :=
    (List.filter_sublist l).map _
  have hnd := h.sublist hsub
  have heq : (l.filter (fun s => s.trade_date = d)).map (fun s => s.seat_name) =
      ((l.filter (fun s => s.trade_date = d)).map
        (fun s => (s.trade_date, s.seat_name))).map Prod.snd := by
    rw [List.map_map]
    rfl
  rw [heq]
  refine hnd.map_on ?_
  intro x hx y hy hxy
  obtain ⟨sx, hsx, rfl⟩ := List.mem_map.mp hx
  obtain ⟨sy, hsy, rfl⟩ := List.mem_map.mp hy
  have hdx : sx.trade_date = d := by simpa using List.of_mem_filter hsx
  have hdy : sy.trade_date = d := by simpa using List.of_mem_filter hsy
  simp only [Prod.mk.injEq]
  exact ⟨hdx.trans hdy.symm, hxy⟩

/-! ## Claims C3 / C4: the Weighted Contract Synthesizer -/

/-- The records qualifying for weighted synthesis of (commodity, date):
same trading date, a contract of the commodity, positive open interest —
exactly the filter at the head of `calculateWeightedContract`. -/
def qualifying (marketData : List MarketRecord) (commodityId tradeDate : String) :
    List MarketRecord :=
  marketData.filter (fun item =>
    item.trade_date = tradeDate ∧ startsWith item.contract_id commodityId ∧
      0 < item.open_interest)

theorem sum_map_div {α : Type*} (f : α → ℚ) (c : ℚ) :
    ∀ l : List α, (l.map (fun x => f x / c)).sum = (l.map f).sum / c
  | [] => by simp
  | x :: xs => by
    rw [List.map_cons, List.sum_cons, sum_map_div f c xs, List.map_cons, List.sum_cons,
      add_div]

/-- Componentwise closed form of the weighted-price `reduce` of
`calculateWeightedContract`. -/
theorem priceFold_eq (t : Int) :
    ∀ (l : List MarketRecord) (acc : PriceAcc),
      l.foldl (fun acc item =>
        ({ open_ := acc.open_ + item.open_ * ((item.open_interest : ℚ) / (t : ℚ))
           high := acc.high + item.high * ((item.open_interest : ℚ) / (t : ℚ))
           low := acc.low + item.low * ((item.open_interest : ℚ) / (t : ℚ))
           close := acc.close + item.close * ((item.open_interest : ℚ) / (t : ℚ))
           settle := acc.settle + item.settle * ((item.open_interest : ℚ) / (t : ℚ)) } : PriceAcc))
        acc =
      { open_ := acc.open_ +
          (l.map (fun item => item.open_ * ((item.open_interest : ℚ) / (t : ℚ)))).sum
        high := acc.high +
          (l.map (fun item => item.high * ((item.open_interest : ℚ) / (t : ℚ)))).sum
        low := acc.low +
          (l.map (fun item => item.low * ((item.open_interest : ℚ) / (t : ℚ)))).sum
        close := acc.close +
          (l.map (fun item => item.close * ((item.open_interest : ℚ) / (t : ℚ)))).sum
        settle := acc.settle +
          (l.map (fun item => item.settle * ((item.open_interest : ℚ) / (t : ℚ)))).sum }
  | [], acc => by simp
  | x :: xs, acc => by
    rw [List.foldl_cons, priceFold_eq t xs]
    simp [add_assoc]

/-- C4: `calculateWeightedContract` returns the distinct "no qualifying
data" outcome (`none`) — rather than a defaulted record — iff no record of
the commodity and date has positive open interest, or the total open
interest over such records is 0; otherwise it synthesizes a record. -/
theorem weightedContract_none_iff (marketData : List MarketRecord)
    (commodityId tradeDate : String) :
    (calculateWeightedContract marketData commodityId tradeDate = none ↔
      qualifying marketData commodityId tradeDate = [] ∨
      ((qualifying marketData commodityId tradeDate).map
        (fun item => item.open_interest)).sum = 0) := by
  by_cases hq : qualifying marketData commodityId tradeDate = []
  · simp only [calculateWeightedContract]
    rw [show marketData.filter (fun item =>
        item.trade_date = tradeDate ∧ startsWith item.contract_id commodityId ∧
          0 < item.open_interest) = qualifying marketData commodityId tradeDate from rfl, hq]
    simp
  · have hpos : 0 < ((qualifying marketData commodityId tradeDate).map
        (fun item => item.open_interest)).sum := by
      refine List.sum_pos _ (fun v hv => ?_) ?_
      · obtain ⟨item, hitem, rfl⟩ := List.mem_map.mp hv
        have hfit := List.of_mem_filter hitem
        simp only [decide_eq_true_eq] at hfit
        exact hfit.2.2
      · simpa using hq
    simp only [calculateWeightedContract]
    rw [show marketData.filter (fun item =>
        item.trade_date = tradeDate ∧ startsWith item.contract_id commodityId ∧
          0 < item.open_interest) = qualifying marketData commodityId tradeDate from rfl]
    rw [if_neg hq, foldl_add_map (fun item => item.open_interest)
      (qualifying marketData commodityId tradeDate) 0, zero_add, if_neg (by omega)]
    constructor
    · intro hcontra
      exact absurd hcontra (by simp)
    · rintro (h | h)
      · exact absurd h hq
      · omega

theorem qualifying_sum_pos (marketData : List MarketRecord)
    (commodityId tradeDate : String)
    (hne : qualifying marketData commodityId tradeDate ≠ []) :
    0 < ((qualifying marketData commodityId tradeDate).map
      (fun item => item.open_interest)).sum := by
  refine List.sum_pos _ (fun v hv => ?_) ?_
  · obtain ⟨item, hitem, rfl⟩ := List.mem_map.mp hv
    have hfit := List.of_mem_filter hitem
    simp only [decide_eq_true_eq] at hfit
    exact hfit.2.2
  · simpa using hne

/-- The claim's weight formula `weight_i = oi_i / Σoi` over a qualifying
set. -/
def specWeight (qc : List MarketRecord) (i : MarketRecord) : ℚ :=
  (i.open_interest : ℚ) / (((qc.map (fun j => j.open_interest)).sum : Int) : ℚ)

/-- C3: on a non-empty qualifying set, `calculateWeightedContract` gives
each constituent weight `oi_i / Σoi` (weights summing to 1), synthesizes
every price field as the weight-averaged price rounded to 2 decimals, and
sums volume and open interest plainly. -/
theorem weightedContract_fields (marketData : List MarketRecord)
    (commodityId tradeDate : String)
    (hne : qualifying marketData commodityId tradeDate ≠ []) :
    ∃ w, calculateWeightedContract marketData commodityId tradeDate = some w ∧
      ((qualifying marketData commodityId tradeDate).map
        (specWeight (qualifying marketData commodityId tradeDate))).sum = 1 ∧
      w.open_ = round2 (((qualifying marketData commodityId tradeDate).map (fun i =>
        i.open_ * specWeight (qualifying marketData commodityId tradeDate) i)).sum) ∧
      w.high = round2 (((qualifying marketData commodityId tradeDate).map (fun i =>
        i.high * specWeight (qualifying marketData commodityId tradeDate) i)).sum) ∧
      w.low = round2 (((qualifying marketData commodityId tradeDate).map (fun i =>
        i.low * specWeight (qualifying marketData commodityId tradeDate) i)).sum) ∧
      w.close = round2 (((qualifying marketData commodityId tradeDate).map (fun i =>
        i.close * specWeight (qualifying marketData commodityId tradeDate) i)).sum) ∧
      w.settle = round2 (((qualifying marketData commodityId tradeDate).map (fun i =>
        i.settle * specWeight (qualifying marketData commodityId tradeDate) i)).sum) ∧
      w.volume = ((qualifying marketData commodityId tradeDate).map
        (fun i => i.volume)).sum ∧
      w.open_interest = ((qualifying marketData commodityId tradeDate).map
        (fun i => i.open_interest)).sum := by
  have htot : ((qualifying marketData commodityId tradeDate).map
      (fun item => item.open_interest)).sum ≠ 0 :=
    (qualifying_sum_pos marketData commodityId tradeDate hne).ne'
  have heq : calculateWeightedContract marketData commodityId tradeDate = some {
      trade_date := tradeDate
      commodity_id := commodityId
      commodity_name := stripDigits
        ((qualifying marketData commodityId tradeDate).headD default).secShortName
      open_ := round2 (((qualifying marketData commodityId tradeDate).map (fun i =>
        i.open_ * specWeight (qualifying marketData commodityId tradeDate) i)).sum)
      high := round2 (((qualifying marketData commodityId tradeDate).map (fun i =>
        i.high * specWeight (qualifying marketData commodityId tradeDate) i)).sum)
      low := round2 (((qualifying marketData commodityId tradeDate).map (fun i =>
        i.low * specWeight (qualifying marketData commodityId tradeDate) i)).sum)
      close := round2 (((qualifying marketData commodityId tradeDate).map (fun i =>
        i.close * specWeight (qualifying marketData commodityId tradeDate) i)).sum)
      settle := round2 (((qualifying marketData commodityId tradeDate).map (fun i =>
        i.settle * specWeight (qualifying marketData commodityId tradeDate) i)).sum)
      volume := ((qualifying marketData commodityId tradeDate).map
        (fun i => i.volume)).sum
      open_interest := ((qualifying marketData commodityId tradeDate).map
        (fun i => i.open_interest)).sum } := by
    simp only [calculateWeightedContract]
    rw [show marketData.filter (fun item =>
        item.trade_date = tradeDate ∧ startsWith item.contract_id commodityId ∧
          0 < item.open_interest) = qualifying marketData commodityId tradeDate from rfl]
    rw [if_neg hne]
    simp only [foldl_add_map, zero_add]
    rw [if_neg htot, priceFold_eq]
    simp [specWeight]
  refine ⟨_, heq, ?_, rfl, rfl, rfl, rfl, rfl, rfl, rfl⟩
  have hshow : ((qualifying marketData commodityId tradeDate).map
      (specWeight (qualifying marketData commodityId tradeDate))).sum =
      ((qualifying marketData commodityId tradeDate).map (fun i =>
        ((i.open_interest : Int) : ℚ) /
          ((((qualifying marketData commodityId tradeDate).map
            (fun j => j.open_interest)).sum : Int) : ℚ))).sum := rfl
  rw [hshow, sum_map_div (fun i => ((i.open_interest : Int) : ℚ))
    ((((qualifying marketData commodityId tradeDate).map
      (fun j => j.open_interest)).sum : Int) : ℚ)
    (qualifying marketData commodityId tradeDate)]
  rw [← intCast_list_sum (fun i => i.open_interest)
    (qualifying marketData commodityId tradeDate)]
  exact div_self (Int.cast_ne_zero.mpr htot)

/-- Constituent A of the claim's example: oi = 100, close = 10. -/
def exMarketA : MarketRecord :=
  { trade_date := "2024-01-02", contract_id := "cu2401", secShortName := "cu2401"
    open_ := 0, high := 0, low := 0, close := 10, settle := 0
    volume := 1, open_interest := 100 }

/-- Constituent B of the claim's example: oi = 300, close = 20. -/
def exMarketB : MarketRecord :=
  { trade_date := "2024-01-02", contract_id := "cu2405", secShortName := "cu2405"
    open_ := 0, high := 0, low := 0, close := 20, settle := 0
    volume := 2, open_interest := 300 }

/-- The claim's example market table. -/
def exMarketData : List MarketRecord := [exMarketA, exMarketB]

/-- Witness for C3 at the claim's example: contracts A(oi=100, close=10)
and B(oi=300, close=20) on the same day; the synthesized close is 17.5. -/
theorem weightedContract_fields_witness :
    qualifying exMarketData "cu" "2024-01-02" ≠ [] ∧
    (∃ w, calculateWeightedContract exMarketData "cu" "2024-01-02" = some w ∧
      ((qualifying exMarketData "cu" "2024-01-02").map
        (specWeight (qualifying exMarketData "cu" "2024-01-02"))).sum = 1 ∧
      w.open_ = round2 (((qualifying exMarketData "cu" "2024-01-02").map (fun i =>
        i.open_ * specWeight (qualifying exMarketData "cu" "2024-01-02") i)).sum) ∧
      w.high = round2 (((qualifying exMarketData "cu" "2024-01-02").map (fun i =>
        i.high * specWeight (qualifying exMarketData "cu" "2024-01-02") i)).sum) ∧
      w.low = round2 (((qualifying exMarketData "cu" "2024-01-02").map (fun i =>
        i.low * specWeight (qualifying exMarketData "cu" "2024-01-02") i)).sum) ∧
      w.close = round2 (((qualifying exMarketData "cu" "2024-01-02").map (fun i =>
        i.close * specWeight (qualifying exMarketData "cu" "2024-01-02") i)).sum) ∧
      w.settle = round2 (((qualifying exMarketData "cu" "2024-01-02").map (fun i =>
        i.settle * specWeight (qualifying exMarketData "cu" "2024-01-02") i)).sum) ∧
      w.volume = ((qualifying exMarketData "cu" "2024-01-02").map
        (fun i => i.volume)).sum ∧
      w.open_interest = ((qualifying exMarketData "cu" "2024-01-02").map
        (fun i => i.open_interest)).sum) ∧
    (calculateWeightedContract exMarketData "cu" "2024-01-02").map
      (fun w => w.close) = some ((35 : ℚ) / 2) :=
  ⟨by decide, weightedContract_fields exMarketData "cu" "2024-01-02" (by decide), by
    obtain ⟨w, hw, h1, h2, h3, h4, hc, h5, h6, h7⟩ :=
      weightedContract_fields exMarketData "cu" "2024-01-02" (by decide)
    rw [hw, show Option.map (fun w : WeightedContract => w.close) (some w) = some w.close from rfl,
      hc]
    have hq2 : qualifying exMarketData "cu" "2024-01-02" = [exMarketA, exMarketB] := by
      simp [qualifying, exMarketData, exMarketA, exMarketB, startsWith]
    have hsum : ((qualifying exMarketData "cu" "2024-01-02").map (fun i =>
        i.close * specWeight (qualifying exMarketData "cu" "2024-01-02") i)).sum = 35 / 2 := by
      rw [hq2]
      norm_num [specWeight, exMarketA, exMarketB]
    rw [hsum]
    norm_num [round2, round_eq]⟩

/-! ## Claim C7: the Profit-Loss calculator -/

/-- The position value `netVol_i * settle_i` at index `i` of a
position/settlement series (0 out of range). -/
def posValue (positions : List PositionPrice) (i : Nat) : ℚ :=
  ((positions.getD i default).netVol : ℚ) * (positions.getD i default).settlePrice

/-- `startIndex = Math.max(0, endIndex - period + 1)` of
`calculateProfitLoss`. -/
def profitStartIndex (positions : List PositionPrice) (period : Nat) : Nat :=
  (max 0 (((positions.length - 1 : Nat) : Int) - (period : Int) + 1)).toNat

theorem sum_map_mul_const {α : Type*} (f : α → ℚ) (c : ℚ) :
    ∀ l : List α, (l.map (fun x => f x * c)).sum = (l.map f).sum * c
  | [] => by simp
  | x :: xs => by
    rw [List.map_cons, List.sum_cons, sum_map_mul_const f c xs, List.map_cons, List.sum_cons,
      add_mul]

/-- The skip semantics of the per-seat series construction: it keeps
exactly the history rows whose date has a matched, positive settlement
price. -/
theorem buildPositionPriceData_eq (seatHistory : List SeatAnalysisData)
    (priceData : List DateSettle) :
    buildPositionPriceData seatHistory priceData =
      seatHistory.filterMap (fun item =>
        match priceData.find? (fun p => p.date = item.trade_date) with
        | none => none
        | some p =>
          if 0 < p.settlePrice then
            some { date := item.trade_date, netVol := item.net_vol,
                   settlePrice := p.settlePrice }
          else none) := by
  induction seatHistory with
  | nil => rfl
  | cons item rest ih =>
    cases hfind : priceData.find? (fun p => p.date = item.trade_date) with
    | none =>
      simp only [buildPositionPriceData, List.map_cons, List.filter_cons,
        List.filterMap_cons, hfind] at ih ⊢
      simpa using ih
    | some p =>
      by_cases hp : 0 < p.settlePrice
      · simp only [buildPositionPriceData, List.map_cons, List.filter_cons,
          List.filterMap_cons, hfind] at ih ⊢
        simpa [hp] using ih
      · simp only [buildPositionPriceData, List.map_cons, List.filter_cons,
          List.filterMap_cons, hfind] at ih ⊢
        simpa [hp] using ih

/-- C7 (amended): `calculateProfitLoss` sums the daily P&L terms whose both
days lie within the last `period` retained observations (`period − 1` terms
when the history is long enough) — equivalently the telescoped
`(V_end − V_start) × contract_unit` — rounded once to an integer, and the
series fed to it skips dates lacking a matched positive settlement price
instead of zero-filling them. -/
theorem profitLoss_spec (positions : List PositionPrice) (contractUnit : ℚ)
    (period : Nat) (seatHistory : List SeatAnalysisData) (priceData : List DateSettle) :
    (2 ≤ positions.length → 1 ≤ period →
      calculateProfitLoss positions contractUnit period =
        round ((((List.range' (profitStartIndex positions period + 1)
          (positions.length - 1 - profitStartIndex positions period)).map
            (fun i => posValue positions i - posValue positions (i - 1))).sum) *
          contractUnit) ∧
      calculateProfitLoss positions contractUnit period =
        round ((posValue positions (positions.length - 1) -
          posValue positions (profitStartIndex positions period)) * contractUnit)) ∧
    (positions.length < 2 → calculateProfitLoss positions contractUnit period = 0) ∧
    (buildPositionPriceData seatHistory priceData =
      seatHistory.filterMap (fun item =>
        match priceData.find? (fun p => p.date = item.trade_date) with
        | none => none
        | some p =>
          if 0 < p.settlePrice then
            some { date := item.trade_date, netVol := item.net_vol,
                   settlePrice := p.settlePrice }
          else none)) ∧
    (∀ d : String, priceData.find? (fun p => p.date = d) = none →
      ∀ q ∈ buildPositionPriceData seatHistory priceData, q.date ≠ d) := by
  refine ⟨?_, ?_, buildPositionPriceData_eq seatHistory priceData, ?_⟩
  · intro h2 hp
    have hlen : ¬ positions.length < 2 := by omega
    have hs_le : profitStartIndex positions period ≤ positions.length - 1 := by
      simp only [profitStartIndex]
      rcases le_total (((positions.length - 1 : Nat) : Int) - (period : Int) + 1) 0 with hx | hx
      · rw [max_eq_left hx]
        simp
      · rw [max_eq_right hx]
        omega
    have hfun : (fun i => (((positions.getD i default).netVol : ℚ) *
          (positions.getD i default).settlePrice -
          ((positions.getD (i - 1) default).netVol : ℚ) *
          (positions.getD (i - 1) default).settlePrice) * contractUnit) =
        (fun i => (posValue positions i - posValue positions (i - 1)) * contractUnit) := rfl
    constructor
    · simp only [calculateProfitLoss, if_neg hlen, profitStartIndex]
      rw [foldl_add_map, zero_add, hfun,
        sum_map_mul_const (fun i => posValue positions i - posValue positions (i - 1))
          contractUnit]
    · simp only [calculateProfitLoss, if_neg hlen, profitStartIndex]
      rw [foldl_add_map, zero_add, hfun,
        sum_map_mul_const (fun i => posValue positions i - posValue positions (i - 1))
          contractUnit,
        sum_range'_telescope (fun i => posValue positions i)]
      rw [Nat.add_sub_cancel' (by simpa only [profitStartIndex] using hs_le)]
  · intro hlen
    simp [calculateProfitLoss, hlen]
  · intro d hd q hq
    rw [buildPositionPriceData_eq] at hq
    obtain ⟨item, hitem, hsome⟩ := List.mem_filterMap.mp hq
    split at hsome
    · exact absurd hsome (by simp)
    · rename_i p hfind
      split at hsome
      · obtain rfl := Option.some.inj hsome
        intro hcontra
        have hdd : item.trade_date = d := hcontra
        rw [hdd, hd] at hfind
        exact Option.noConfusion hfind
      · exact absurd hsome (by simp)

/-- 17 observations with `netVol_i = i` and settlement price 1, so that the
position value at index `i` is exactly `i`. -/
def ex7 : List PositionPrice :=
  [⟨"d0", 0, 1⟩, ⟨"d1", 1, 1⟩, ⟨"d2", 2, 1⟩, ⟨"d3", 3, 1⟩, ⟨"d4", 4, 1⟩, ⟨"d5", 5, 1⟩,
   ⟨"d6", 6, 1⟩, ⟨"d7", 7, 1⟩, ⟨"d8", 8, 1⟩, ⟨"d9", 9, 1⟩, ⟨"d10", 10, 1⟩, ⟨"d11", 11, 1⟩,
   ⟨"d12", 12, 1⟩, ⟨"d13", 13, 1⟩, ⟨"d14", 14, 1⟩, ⟨"d15", 15, 1⟩, ⟨"d16", 16, 1⟩]

/-- Witness for C7's amended theorem at a concrete 17-day series. -/
theorem profitLoss_spec_witness :
    calculateProfitLoss ex7 1 15 =
      round ((posValue ex7 (ex7.length - 1) - posValue ex7 (profitStartIndex ex7 15)) * 1) :=
  ((profitLoss_spec ex7 1 15 [] []).1 (by decide) (by decide)).2

/-- Formalisation of the claim's literal reading of Profit(window): the
daily P&L of every one of the last `window` observations is summed — the
first of them referencing the observation just before the window. -/
def profitOverLastWindow (positions : List PositionPrice) (contractUnit : ℚ)
    (period : Nat) : Int :=
  if positions.length < 2 then 0
  else
    let endIndex := positions.length - 1
    let firstDay := (max 0 ((endIndex : Int) - (period : Int) + 1)).toNat
    let t0 := max 1 firstDay
    round ((((List.range' t0 (endIndex + 1 - t0)).map
      (fun t => posValue positions t - posValue positions (t - 1))).sum) * contractUnit)

/-- Counterexample to C7 as stated: on 17 observations with position values
`V_i = i` and window 15, the code computes 14 (the 14 daily terms inside
the window) whereas summing a daily P&L for each of the last 15
observations gives 15. -/
theorem profitLoss_counterexample :
    calculateProfitLoss ex7 1 15 = 14 ∧ profitOverLastWindow ex7 1 15 = 15 := by
  have hlen17 : ex7.length = 17 := rfl
  have hlen : ¬ ex7.length < 2 := by decide
  have hfun : (fun i => (((ex7.getD i default).netVol : ℚ) *
        (ex7.getD i default).settlePrice -
        ((ex7.getD (i - 1) default).netVol : ℚ) *
        (ex7.getD (i - 1) default).settlePrice) * (1 : ℚ)) =
      (fun i => (posValue ex7 i - posValue ex7 (i - 1)) * 1) := rfl
  have hget16 : ex7.getD 16 default = ⟨"d16", 16, 1⟩ := rfl
  have hget2 : ex7.getD 2 default = ⟨"d2", 2, 1⟩ := rfl
  have hget1 : ex7.getD 1 default = ⟨"d1", 1, 1⟩ := rfl
  have hv16 : posValue ex7 16 = 16 := by rw [posValue, hget16]; norm_num
  have hv2 : posValue ex7 2 = 2 := by rw [posValue, hget2]; norm_num
  have hv1 : posValue ex7 1 = 1 := by rw [posValue, hget1]; norm_num
  constructor
  · simp only [calculateProfitLoss, if_neg hlen]
    rw [foldl_add_map, zero_add, hfun,
      sum_map_mul_const (fun i => posValue ex7 i - posValue ex7 (i - 1)) 1,
      sum_range'_telescope (fun i => posValue ex7 i)]
    have hS : (max 0 (((ex7.length - 1 : Nat) : Int) - (15 : Nat) + 1)).toNat = 2 := by
      rw [hlen17]
      norm_num
      decide
    rw [hS, hlen17]
    norm_num [hv16, hv2, round_eq]
  · simp only [profitOverLastWindow, if_neg hlen]
    have ht0 : max 1 ((max 0 (((ex7.length - 1 : Nat) : Int) - (15 : Nat) + 1)).toNat) =
        1 + 1 := by
      rw [hlen17]
      norm_num
      decide
    rw [ht0, sum_range'_telescope (fun t => posValue ex7 t)]
    have hm : 1 + (ex7.length - 1 + 1 - (1 + 1)) = 16 := by
      rw [hlen17]
    rw [hm]
    norm_num [hv16, hv1, round_eq]

/-! ## Claims C5 / C6: the Seat Position Aggregator -/

/-- The raw holdings matching one (commodity, date) — the filter at the
head of `calculateSeatAnalysis`. -/
def matchingHoldings (holdingData : List RawHolding) (commodityId tradeDate : String) :
    List RawHolding :=
  holdingData.filter (fun item =>
    item.trade_date = tradeDate ∧ startsWith item.contract_id commodityId)

/-- The summary row produced for one seat's group of matching holdings:
each directional field is the plain sum, the net fields their differences. -/
def seatRow (commodityId tradeDate : String) (g : List RawHolding) : SeatAnalysisData :=
  { trade_date := tradeDate
    commodity_id := commodityId
    commodity_name := stripDigits (g.headD default).secShortName
    seat_name := (g.headD default).seat_name
    long_vol := (g.map (fun i => i.long_vol)).sum
    short_vol := (g.map (fun i => i.short_vol)).sum
    long_chg := (g.map (fun i => i.long_chg)).sum
    short_chg := (g.map (fun i => i.short_chg)).sum
    net_vol := (g.map (fun i => i.long_vol)).sum - (g.map (fun i => i.short_vol)).sum
    net_chg := (g.map (fun i => i.long_chg)).sum - (g.map (fun i => i.short_chg)).sum }

theorem applyGroup_seat (commodityId tradeDate : String) {g : List RawHolding}
    (hg : g ≠ []) :
    applyGroup (iniSeat commodityId tradeDate) updSeat default g =
      { trade_date := tradeDate
        commodity_id := commodityId
        commodity_name := stripDigits (g.headD default).secShortName
        seat_name := (g.headD default).seat_name
        long_vol := (g.map (fun i => i.long_vol)).sum
        short_vol := (g.map (fun i => i.short_vol)).sum
        long_chg := (g.map (fun i => i.long_chg)).sum
        short_chg := (g.map (fun i => i.short_chg)).sum
        net_vol := 0
        net_chg := 0 } := by
  cases g with
  | nil => exact absurd rfl hg
  | cons x xs =>
    show xs.foldl updSeat (iniSeat commodityId tradeDate x) = _
    rw [foldl_updSeat]
    simp [iniSeat]

theorem headD_filter_pred {α : Type*} [Inhabited α] (p : α → Bool) (l : List α)
    (h : l.filter p ≠ []) : p ((l.filter p).headD default) = true := by
  cases hfl : l.filter p with
  | nil => exact absurd hfl h
  | cons x xs =>
    have hx : x ∈ l.filter p := by
      rw [hfl]
      exact List.mem_cons_self x xs
    rw [List.headD_cons]
    exact (List.mem_filter.mp hx).2

/-- Closed form of `calculateSeatAnalysis`: one `seatRow` per distinct seat
name in first-occurrence order, stably sorted by absolute net position
descending. -/
theorem calculateSeatAnalysis_eq (holdingData : List RawHolding)
    (commodityId tradeDate : String) :
    calculateSeatAnalysis holdingData commodityId tradeDate =
      List.insertionSort absNetDesc
        ((dedupF ((matchingHoldings holdingData commodityId tradeDate).map
          (fun i => i.seat_name))).map
          (fun s => seatRow commodityId tradeDate
            ((matchingHoldings holdingData commodityId tradeDate).filter
              (fun i => i.seat_name = s)))) := by
  have hm : holdingData.filter (fun item =>
      item.trade_date = tradeDate ∧ startsWith item.contract_id commodityId) =
      matchingHoldings holdingData commodityId tradeDate := rfl
  by_cases hfl : matchingHoldings holdingData commodityId tradeDate = []
  · simp only [calculateSeatAnalysis, hm, if_pos hfl, hfl]
    simp [dedupF, dedupAux]
  · simp only [calculateSeatAnalysis, hm, if_neg hfl]
    rw [jsMapFold_eq (fun item => item.seat_name) (iniSeat commodityId tradeDate) updSeat
      default, List.map_map, List.map_map]
    congr 1
    refine List.map_congr_left (fun s hs => ?_)
    have hg : (matchingHoldings holdingData commodityId tradeDate).filter
        (fun i => i.seat_name = s) ≠ [] := by
      intro hnil
      rw [List.filter_eq_nil_iff] at hnil
      have hs' := mem_dedupF.mp hs
      obtain ⟨i, hi, hname⟩ := List.mem_map.mp hs'
      exact hnil i hi (by simp [hname])
    simp only [Function.comp_apply]
    rw [applyGroup_seat commodityId tradeDate hg]
    simp [seatRow]

/-- C5: every row of `calculateSeatAnalysis` has `net_vol` and `net_chg`
recomputed exactly as the differences of the directional sums over the
seat's matching holdings. -/
theorem seatAnalysis_invariant (holdingData : List RawHolding)
    (commodityId tradeDate : String) :
    ∀ row ∈ calculateSeatAnalysis holdingData commodityId tradeDate,
      row.net_vol = row.long_vol - row.short_vol ∧
      row.net_chg = row.long_chg - row.short_chg ∧
      row.long_vol = (((matchingHoldings holdingData commodityId tradeDate).filter
        (fun i => i.seat_name = row.seat_name)).map (fun i => i.long_vol)).sum ∧
      row.short_vol = (((matchingHoldings holdingData commodityId tradeDate).filter
        (fun i => i.seat_name = row.seat_name)).map (fun i => i.short_vol)).sum ∧
      row.long_chg = (((matchingHoldings holdingData commodityId tradeDate).filter
        (fun i => i.seat_name = row.seat_name)).map (fun i => i.long_chg)).sum ∧
      row.short_chg = (((matchingHoldings holdingData commodityId tradeDate).filter
        (fun i => i.seat_name = row.seat_name)).map (fun i => i.short_chg)).sum := by
  intro row hrow
  rw [calculateSeatAnalysis_eq] at hrow
  rw [(List.perm_insertionSort absNetDesc _).mem_iff] at hrow
  obtain ⟨s, hs, rfl⟩ := List.mem_map.mp hrow
  have hg : (matchingHoldings holdingData commodityId tradeDate).filter
      (fun i => i.seat_name = s) ≠ [] := by
    intro hnil
    rw [List.filter_eq_nil_iff] at hnil
    have hs' := mem_dedupF.mp hs
    obtain ⟨i, hi, hname⟩ := List.mem_map.mp hs'
    exact hnil i hi (by simp [hname])
  have hname : (seatRow commodityId tradeDate
      ((matchingHoldings holdingData commodityId tradeDate).filter
        (fun i => i.seat_name = s))).seat_name = s := by
    have := headD_filter_pred (fun i => decide (i.seat_name = s))
      (matchingHoldings holdingData commodityId tradeDate) hg
    simp only [decide_eq_true_eq] at this
    exact this
  refine ⟨rfl, rfl, ?_, ?_, ?_, ?_⟩ <;> rw [hname] <;> rfl

/-- C6: the output of `calculateSeatAnalysis` is sorted by `|net_vol|`
descending, and any two rows with equal `|net_vol|` appear in the order in
which their seats first appear among the matching input holdings. -/
theorem seatAnalysis_sorted_stable (holdingData : List RawHolding)
    (commodityId tradeDate : String) :
    (calculateSeatAnalysis holdingData commodityId tradeDate).Pairwise
      (fun a b => |b.net_vol| ≤ |a.net_vol|) ∧
    ∀ a b, a ∈ calculateSeatAnalysis holdingData commodityId tradeDate →
      b ∈ calculateSeatAnalysis holdingData commodityId tradeDate →
      |a.net_vol| = |b.net_vol| →
      idxOf' a.seat_name ((matchingHoldings holdingData commodityId tradeDate).map
        (fun i => i.seat_name)) <
        idxOf' b.seat_name ((matchingHoldings holdingData commodityId tradeDate).map
          (fun i => i.seat_name)) →
      List.Sublist [a, b] (calculateSeatAnalysis holdingData commodityId tradeDate) := by
  constructor
  · rw [calculateSeatAnalysis_eq]
    exact List.Pairwise.imp (fun h => h) (List.sorted_insertionSort absNetDesc _)
  · intro a b ha hb habs hidx
    rw [calculateSeatAnalysis_eq] at ha hb ⊢
    rw [(List.perm_insertionSort absNetDesc _).mem_iff] at ha hb
    obtain ⟨sa, hsa, rfl⟩ := List.mem_map.mp ha
    obtain ⟨sb, hsb, rfl⟩ := List.mem_map.mp hb
    have hga : (matchingHoldings holdingData commodityId tradeDate).filter
        (fun i => i.seat_name = sa) ≠ [] := by
      intro hnil
      rw [List.filter_eq_nil_iff] at hnil
      obtain ⟨i, hi, hname⟩ := List.mem_map.mp (mem_dedupF.mp hsa)
      exact hnil i hi (by simp [hname])
    have hgb : (matchingHoldings holdingData commodityId tradeDate).filter
        (fun i => i.seat_name = sb) ≠ [] := by
      intro hnil
      rw [List.filter_eq_nil_iff] at hnil
      obtain ⟨i, hi, hname⟩ := List.mem_map.mp (mem_dedupF.mp hsb)
      exact hnil i hi (by simp [hname])
    have hna : (seatRow commodityId tradeDate
        ((matchingHoldings holdingData commodityId tradeDate).filter
          (fun i => i.seat_name = sa))).seat_name = sa := by
      have := headD_filter_pred (fun i => decide (i.seat_name = sa))
        (matchingHoldings holdingData commodityId tradeDate) hga
      simp only [decide_eq_true_eq] at this
      exact this
    have hnb : (seatRow commodityId tradeDate
        ((matchingHoldings holdingData commodityId tradeDate).filter
          (fun i => i.seat_name = sb))).seat_name = sb := by
      have := headD_filter_pred (fun i => decide (i.seat_name = sb))
        (matchingHoldings holdingData commodityId tradeDate) hgb
      simp only [decide_eq_true_eq] at this
      exact this
    rw [hna, hnb] at hidx
    have hsb_mem : sb ∈ (matchingHoldings holdingData commodityId tradeDate).map
        (fun i => i.seat_name) := mem_dedupF.mp hsb
    have hpair := pair_sublist_dedupF hsb_mem hidx
    have hmap := hpair.map (fun s => seatRow commodityId tradeDate
      ((matchingHoldings holdingData commodityId tradeDate).filter
        (fun i => i.seat_name = s)))
    exact List.pair_sublist_insertionSort (le_of_eq habs.symm) hmap

/-- Holdings used by the C5 witness: one seat split over two contracts
plus a second seat. -/
def ex5 : List RawHolding :=
  [⟨1, "2024-01-02", "cu2401", "cu2401", "seatA", 10, 4, 1, 2⟩,
   ⟨2, "2024-01-02", "cu2405", "cu2405", "seatA", 5, 3, 2, 1⟩,
   ⟨3, "2024-01-02", "cu2401", "cu2401", "seatB", 7, 1, 0, 0⟩]

/-- The aggregated summary row of seatA in `ex5`. -/
def ex5RowA : SeatAnalysisData := ⟨"2024-01-02", "cu", "cu", "seatA", 15, 7, 3, 3, 8, 0⟩

/-- Witness for C5 at a concrete aggregated row. -/
theorem seatAnalysis_invariant_witness :
    ex5RowA.net_vol = ex5RowA.long_vol - ex5RowA.short_vol ∧
    ex5RowA.net_chg = ex5RowA.long_chg - ex5RowA.short_chg ∧
    ex5RowA.long_vol = (((matchingHoldings ex5 "cu" "2024-01-02").filter
      (fun i => i.seat_name = ex5RowA.seat_name)).map (fun i => i.long_vol)).sum ∧
    ex5RowA.short_vol = (((matchingHoldings ex5 "cu" "2024-01-02").filter
      (fun i => i.seat_name = ex5RowA.seat_name)).map (fun i => i.short_vol)).sum ∧
    ex5RowA.long_chg = (((matchingHoldings ex5 "cu" "2024-01-02").filter
      (fun i => i.seat_name = ex5RowA.seat_name)).map (fun i => i.long_chg)).sum ∧
    ex5RowA.short_chg = (((matchingHoldings ex5 "cu" "2024-01-02").filter
      (fun i => i.seat_name = ex5RowA.seat_name)).map (fun i => i.short_chg)).sum :=
  seatAnalysis_invariant ex5 "cu" "2024-01-02" ex5RowA (by decide)

/-- Holdings used by the C6 witness: two seats tied at `|net_vol| = 5`. -/
def ex6 : List RawHolding :=
  [⟨1, "2024-01-02", "cu2401", "cu2401", "s1", 5, 0, 0, 0⟩,
   ⟨2, "2024-01-02", "cu2401", "cu2401", "s2", 0, 5, 0, 0⟩]

/-- The summary rows of the two tied seats of `ex6`. -/
def ex6RowA : SeatAnalysisData := ⟨"2024-01-02", "cu", "cu", "s1", 5, 0, 0, 0, 5, 0⟩

def ex6RowB : SeatAnalysisData := ⟨"2024-01-02", "cu", "cu", "s2", 0, 5, 0, 0, -5, 0⟩

/-- Witness for C6: the tied rows keep their first-appearance order. -/
theorem seatAnalysis_sorted_stable_witness :
    List.Sublist [ex6RowA, ex6RowB] (calculateSeatAnalysis ex6 "cu" "2024-01-02") :=
  (seatAnalysis_sorted_stable ex6 "cu" "2024-01-02").2 ex6RowA ex6RowB
    (by decide) (by decide) (by decide) (by decide)

/-! ## Claim C2: the Flow indicator -/

/-- The rows of one trading date, in input order (the date-grouping
semantics of the indicator calculators). -/
def dayRows (seatData : List SeatAnalysisData) (d : String) : List SeatAnalysisData :=
  seatData.filter (fun item => item.trade_date = d)

/-- The top-N selection of the Net/Flow indicators: stable sort by
`|net_vol|` descending, then the first `n` seats (all of them for `none`,
the `'all'` breadth). -/
def flowSelected (dayData : List SeatAnalysisData) (n : Option Nat) :
    List SeatAnalysisData :=
  match n with
  | some k => (List.insertionSort absNetDesc dayData).take k
  | none => List.insertionSort absNetDesc dayData

/-- `addLong`: total net position of selected seats with `net_vol > 0` and
`net_chg > 0`. -/
def addLongOf (seats : List SeatAnalysisData) : Int :=
  ((seats.filter (fun seat => 0 < seat.net_vol ∧ 0 < seat.net_chg)).map
    (fun seat => seat.net_vol)).sum

/-- `addShort`: total `|net_vol|` of selected seats with `net_vol < 0` and
`net_chg < 0`. -/
def addShortOf (seats : List SeatAnalysisData) : Int :=
  ((seats.filter (fun seat => seat.net_vol < 0 ∧ seat.net_chg < 0)).map
    (fun seat => |seat.net_vol|)).sum

/-- `reduceLong`: each selected seat with `net_vol > 0` and `net_chg < 0`
contributes `−net_vol` (a negative magnitude). -/
def reduceLongOf (seats : List SeatAnalysisData) : Int :=
  ((seats.filter (fun seat => 0 < seat.net_vol ∧ seat.net_chg < 0)).map
    (fun seat => -seat.net_vol)).sum

/-- `reduceShort`: each selected seat with `net_vol < 0` and `net_chg > 0`
contributes its (negative) `net_vol`. -/
def reduceShortOf (seats : List SeatAnalysisData) : Int :=
  ((seats.filter (fun seat => seat.net_vol < 0 ∧ 0 < seat.net_chg)).map
    (fun seat => seat.net_vol)).sum

theorem list_sum_nonpos : ∀ {l : List Int}, (∀ v ∈ l, v ≤ 0) → l.sum ≤ 0
  | [], _ => by simp
  | v :: vs, h => by
    rw [List.sum_cons]
    have hrest := list_sum_nonpos (fun x hx => h x (List.mem_cons_of_mem _ hx))
    have hv := h v (List.mem_cons_self v vs)
    omega

theorem addLong_fold (sel : List SeatAnalysisData) :
    (sel.filter (fun seat => 0 < seat.net_vol ∧ 0 < seat.net_chg)).foldl
      (fun sum seat => sum + seat.net_vol) 0 = addLongOf sel := by
  rw [addLongOf, foldl_add_map, zero_add]

theorem addShort_fold (sel : List SeatAnalysisData) :
    |(sel.filter (fun seat => seat.net_vol < 0 ∧ seat.net_chg < 0)).foldl
      (fun sum seat => sum + seat.net_vol) 0| = addShortOf sel := by
  rw [foldl_add_map, zero_add, addShortOf]
  have hall : ∀ v ∈ (sel.filter (fun seat => seat.net_vol < 0 ∧ seat.net_chg < 0)).map
      (fun seat => seat.net_vol), v ≤ 0 := by
    intro v hv
    obtain ⟨seat, hseat, rfl⟩ := List.mem_map.mp hv
    have hfit := List.of_mem_filter hseat
    simp only [decide_eq_true_eq] at hfit
    omega
  rw [show (sel.filter (fun seat => seat.net_vol < 0 ∧ seat.net_chg < 0)).map
      (fun seat => |seat.net_vol|) =
      ((sel.filter (fun seat => seat.net_vol < 0 ∧ seat.net_chg < 0)).map
        (fun seat => seat.net_vol)).map (fun v => |v|) from by rw [List.map_map]; rfl,
    sum_map_abs_of_nonpos hall, abs_of_nonpos (list_sum_nonpos hall)]

theorem reduceLong_fold (sel : List SeatAnalysisData) :
    -((sel.filter (fun seat => 0 < seat.net_vol ∧ seat.net_chg < 0)).foldl
      (fun sum seat => sum + seat.net_vol) 0) = reduceLongOf sel := by
  rw [foldl_add_map, zero_add, reduceLongOf]
  exact (sum_map_neg (fun seat : SeatAnalysisData => seat.net_vol) _).symm

theorem reduceShort_fold (sel : List SeatAnalysisData) :
    (sel.filter (fun seat => seat.net_vol < 0 ∧ 0 < seat.net_chg)).foldl
      (fun sum seat => sum + seat.net_vol) 0 = reduceShortOf sel := by
  rw [reduceShortOf, foldl_add_map, zero_add]

/-- The per-date Flow row in terms of the four bucket sums at each
breadth. -/
theorem flowDayRow_eq (d : String) (day : List SeatAnalysisData) :
    flowDayRow d day = {
      trade_date := d
      add_long_10 := addLongOf (flowSelected day (some 10))
      add_long_20 := addLongOf (flowSelected day (some 20))
      add_long_all := addLongOf (flowSelected day none)
      add_short_10 := addShortOf (flowSelected day (some 10))
      add_short_20 := addShortOf (flowSelected day (some 20))
      add_short_all := addShortOf (flowSelected day none)
      reduce_long_10 := reduceLongOf (flowSelected day (some 10))
      reduce_long_20 := reduceLongOf (flowSelected day (some 20))
      reduce_long_all := reduceLongOf (flowSelected day none)
      reduce_short_10 := reduceShortOf (flowSelected day (some 10))
      reduce_short_20 := reduceShortOf (flowSelected day (some 20))
      reduce_short_all := reduceShortOf (flowSelected day none) } := by
  simp only [flowDayRow, flowSelected]
  simp only [addLong_fold, addShort_fold, reduceLong_fold, reduceShort_fold, flowSelected]

/-- C2: for every trading date present in the input (and each breadth), the
Flow indicator row classifies the top-N seats by the signs of
`(net_vol, net_chg)` into the four buckets, and seats with a zero
`net_vol` or `net_chg` contribute to none of them. -/
theorem flowLongShort_eq (seatData : List SeatAnalysisData) :
    ((calculateFlowLongShort seatData).map (fun r => r.trade_date)).Nodup ∧
    (∀ d, d ∈ (calculateFlowLongShort seatData).map (fun r => r.trade_date) ↔
      d ∈ seatData.map (fun s => s.trade_date)) ∧
    (∀ r ∈ calculateFlowLongShort seatData,
      (r.add_long_10 = addLongOf (flowSelected (dayRows seatData r.trade_date) (some 10)) ∧
       r.add_long_20 = addLongOf (flowSelected (dayRows seatData r.trade_date) (some 20)) ∧
       r.add_long_all = addLongOf (flowSelected (dayRows seatData r.trade_date) none)) ∧
      (r.add_short_10 = addShortOf (flowSelected (dayRows seatData r.trade_date) (some 10)) ∧
       r.add_short_20 = addShortOf (flowSelected (dayRows seatData r.trade_date) (some 20)) ∧
       r.add_short_all = addShortOf (flowSelected (dayRows seatData r.trade_date) none)) ∧
      (r.reduce_long_10 = reduceLongOf (flowSelected (dayRows seatData r.trade_date) (some 10)) ∧
       r.reduce_long_20 = reduceLongOf (flowSelected (dayRows seatData r.trade_date) (some 20)) ∧
       r.reduce_long_all = reduceLongOf (flowSelected (dayRows seatData r.trade_date) none)) ∧
      (r.reduce_short_10 = reduceShortOf (flowSelected (dayRows seatData r.trade_date) (some 10)) ∧
       r.reduce_short_20 = reduceShortOf (flowSelected (dayRows seatData r.trade_date) (some 20)) ∧
       r.reduce_short_all = reduceShortOf (flowSelected (dayRows seatData r.trade_date) none))) ∧
    (∀ seats : List SeatAnalysisData,
      addLongOf seats =
        addLongOf (seats.filter (fun s => s.net_vol ≠ 0 ∧ s.net_chg ≠ 0)) ∧
      addShortOf seats =
        addShortOf (seats.filter (fun s => s.net_vol ≠ 0 ∧ s.net_chg ≠ 0)) ∧
      reduceLongOf seats =
        reduceLongOf (seats.filter (fun s => s.net_vol ≠ 0 ∧ s.net_chg ≠ 0)) ∧
      reduceShortOf seats =
        reduceShortOf (seats.filter (fun s => s.net_vol ≠ 0 ∧ s.net_chg ≠ 0))) := by
  have hrepr : calculateFlowLongShort seatData =
      List.insertionSort dateAscFlow
        ((dedupF (seatData.map (fun item => item.trade_date))).map
          (fun d => flowDayRow d (dayRows seatData d))) := by
    simp only [calculateFlowLongShort]
    rw [dateGroups_eq, List.map_map]
    rfl
  have hdates : ((dedupF (seatData.map (fun item => item.trade_date))).map
      (fun d => (flowDayRow d (dayRows seatData d)).trade_date)) =
      dedupF (seatData.map (fun item => item.trade_date)) := by
    rw [show (fun d => (flowDayRow d (dayRows seatData d)).trade_date) =
      fun d : String => d from rfl, List.map_id']
  have hperm := List.perm_insertionSort dateAscFlow
    ((dedupF (seatData.map (fun item => item.trade_date))).map
      (fun d => flowDayRow d (dayRows seatData d)))
  refine ⟨?_, ?_, ?_, ?_⟩
  · rw [hrepr]
    refine ((hperm.map (fun r => r.trade_date)).nodup_iff).mpr ?_
    rw [List.map_map]
    rw [show ((fun r : FlowRow => r.trade_date) ∘ fun d => flowDayRow d (dayRows seatData d)) =
      fun d : String => d from rfl, List.map_id']
    exact nodup_dedupF _
  · intro d
    rw [hrepr]
    rw [(hperm.map (fun r => r.trade_date)).mem_iff, List.map_map]
    rw [show ((fun r : FlowRow => r.trade_date) ∘ fun d => flowDayRow d (dayRows seatData d)) =
      fun d : String => d from rfl, List.map_id']
    exact mem_dedupF
  · intro r hr
    rw [hrepr, (List.perm_insertionSort dateAscFlow _).mem_iff] at hr
    obtain ⟨d, hd, rfl⟩ := List.mem_map.mp hr
    have hdate : (flowDayRow d (dayRows seatData d)).trade_date = d := rfl
    rw [hdate, flowDayRow_eq]
    exact ⟨⟨rfl, rfl, rfl⟩, ⟨rfl, rfl, rfl⟩, ⟨rfl, rfl, rfl⟩, ⟨rfl, rfl, rfl⟩⟩
  · intro seats
    have hpurge : ∀ (p : SeatAnalysisData → Prop) (_ : DecidablePred p),
        (∀ s, p s → s.net_vol ≠ 0 ∧ s.net_chg ≠ 0) → True := fun _ _ _ => trivial
    refine ⟨?_, ?_, ?_, ?_⟩
    · rw [addLongOf, addLongOf, List.filter_filter]
      refine congrArg _ (congrArg _ (List.filter_congr (fun a _ => ?_)))
      by_cases h1 : 0 < a.net_vol ∧ 0 < a.net_chg
      · have h2 : a.net_vol ≠ 0 ∧ a.net_chg ≠ 0 := ⟨by omega, by omega⟩
        simp [h1, h2]
      · simp [h1]
    · rw [addShortOf, addShortOf, List.filter_filter]
      refine congrArg _ (congrArg _ (List.filter_congr (fun a _ => ?_)))
      by_cases h1 : a.net_vol < 0 ∧ a.net_chg < 0
      · have h2 : a.net_vol ≠ 0 ∧ a.net_chg ≠ 0 := ⟨by omega, by omega⟩
        simp [h1, h2]
      · simp [h1]
    · rw [reduceLongOf, reduceLongOf, List.filter_filter]
      refine congrArg _ (congrArg _ (List.filter_congr (fun a _ => ?_)))
      by_cases h1 : 0 < a.net_vol ∧ a.net_chg < 0
      · have h2 : a.net_vol ≠ 0 ∧ a.net_chg ≠ 0 := ⟨by omega, by omega⟩
        simp [h1, h2]
      · simp [h1]
    · rw [reduceShortOf, reduceShortOf, List.filter_filter]
      refine congrArg _ (congrArg _ (List.filter_congr (fun a _ => ?_)))
      by_cases h1 : a.net_vol < 0 ∧ 0 < a.net_chg
      · have h2 : a.net_vol ≠ 0 ∧ a.net_chg ≠ 0 := ⟨by omega, by omega⟩
        simp [h1, h2]
      · simp [h1]

/-- The claim's example day: S1(net=+50, chg=+5), S2(net=−30, chg=−2),
S3(net=+20, chg=−1). -/
def ex2 : List SeatAnalysisData :=
  [⟨"d", "cu", "cu", "S1", 50, 0, 5, 0, 50, 5⟩,
   ⟨"d", "cu", "cu", "S2", 0, 30, 0, 2, -30, -2⟩,
   ⟨"d", "cu", "cu", "S3", 20, 0, 0, 1, 20, -1⟩]

/-- The Flow row the code computes on `ex2`. -/
def ex2Row : FlowRow := ⟨"d", 50, 50, 50, 30, 30, 30, -20, -20, -20, 0, 0, 0⟩

/-- Witness for C2 at the claim's example: with all three seats selected,
addLong = 50, addShort = 30, reduceLong = −20, reduceShort = 0. -/
theorem flowLongShort_witness :
    ((ex2Row.add_long_10 = addLongOf (flowSelected (dayRows ex2 ex2Row.trade_date) (some 10)) ∧
      ex2Row.add_long_20 = addLongOf (flowSelected (dayRows ex2 ex2Row.trade_date) (some 20)) ∧
      ex2Row.add_long_all = addLongOf (flowSelected (dayRows ex2 ex2Row.trade_date) none)) ∧
     (ex2Row.add_short_10 = addShortOf (flowSelected (dayRows ex2 ex2Row.trade_date) (some 10)) ∧
      ex2Row.add_short_20 = addShortOf (flowSelected (dayRows ex2 ex2Row.trade_date) (some 20)) ∧
      ex2Row.add_short_all = addShortOf (flowSelected (dayRows ex2 ex2Row.trade_date) none)) ∧
     (ex2Row.reduce_long_10 =
        reduceLongOf (flowSelected (dayRows ex2 ex2Row.trade_date) (some 10)) ∧
      ex2Row.reduce_long_20 =
        reduceLongOf (flowSelected (dayRows ex2 ex2Row.trade_date) (some 20)) ∧
      ex2Row.reduce_long_all =
        reduceLongOf (flowSelected (dayRows ex2 ex2Row.trade_date) none)) ∧
     (ex2Row.reduce_short_10 =
        reduceShortOf (flowSelected (dayRows ex2 ex2Row.trade_date) (some 10)) ∧
      ex2Row.reduce_short_20 =
        reduceShortOf (flowSelected (dayRows ex2 ex2Row.trade_date) (some 20)) ∧
      ex2Row.reduce_short_all =
        reduceShortOf (flowSelected (dayRows ex2 ex2Row.trade_date) none))) ∧
    addLongOf (flowSelected (dayRows ex2 "d") (some 10)) = 50 ∧
    addShortOf (flowSelected (dayRows ex2 "d") (some 10)) = 30 ∧
    reduceLongOf (flowSelected (dayRows ex2 "d") (some 10)) = -20 ∧
    reduceShortOf (flowSelected (dayRows ex2 "d") (some 10)) = 0 :=
  ⟨(flowLongShort_eq ex2).2.2.1 ex2Row (by decide), by decide, by decide, by decide, by decide⟩

/-! ## Claim C1: the Real indicator -/

/-- The claim's breadth selection for the Real indicator: sort the
two-entries-per-seat pool by entry volume descending (stable), take the
top `n` entries (all for `none`), and read off their seat names. -/
def realSelNames (day : List SeatAnalysisData) (n : Option Nat) : List String :=
  ((match n with
    | some k => (List.insertionSort volumeDesc (combinedVolumes day)).take k
    | none => List.insertionSort volumeDesc (combinedVolumes day) : List PoolEntry)).map
    (fun item => item.seat_name)

/-- `realLong`: total net position of the seats appearing among the
selected pool entries whose net position is positive. -/
def realLongSpec (day : List SeatAnalysisData) (n : Option Nat) : Int :=
  ((day.filter (fun s => s.seat_name ∈ realSelNames day n ∧ 0 < s.net_vol)).map
    (fun s => s.net_vol)).sum

/-- `realShort`: total `|net_vol|` of the seats appearing among the
selected pool entries whose net position is negative. -/
def realShortSpec (day : List SeatAnalysisData) (n : Option Nat) : Int :=
  ((day.filter (fun s => s.seat_name ∈ realSelNames day n ∧ s.net_vol < 0)).map
    (fun s => |s.net_vol|)).sum

/-- The net-position accumulation of `calculateRealLongShort` over the
seats involved in a selection `sel`, in closed form (requires the day's
seat names to be pairwise distinct, the (date, commodity, seat) key of the
Seat Summary table). -/
theorem realCalcAux (day : List SeatAnalysisData)
    (hnd : (day.map (fun s => s.seat_name)).Nodup) (sel : List PoolEntry) :
    ((jsMapFold (fun seat => seat.seat_name) (fun seat => seat.net_vol)
      (fun _ seat => seat.net_vol)
      (day.filter (fun seat =>
        seat.seat_name ∈ dedupF (sel.map (fun item => item.seat_name))))).foldl
      (fun acc p =>
        if 0 < p.2 then (acc.1 + p.2, acc.2)
        else if p.2 < 0 then (acc.1, acc.2 + |p.2|)
        else acc) ((0 : Int), (0 : Int))) =
    (((day.filter (fun s =>
        s.seat_name ∈ sel.map (fun item => item.seat_name) ∧ 0 < s.net_vol)).map
      (fun s => s.net_vol)).sum,
     ((day.filter (fun s =>
        s.seat_name ∈ sel.map (fun item => item.seat_name) ∧ s.net_vol < 0)).map
      (fun s => |s.net_vol|)).sum) := by
  have hnd' : ((day.filter (fun seat =>
      seat.seat_name ∈ dedupF (sel.map (fun item => item.seat_name)))).map
      (fun s => s.seat_name)).Nodup :=
    hnd.sublist ((List.filter_sublist day).map _)
  rw [jsMapFold_of_nodup (fun seat : SeatAnalysisData => seat.seat_name)
    (fun seat : SeatAnalysisData => seat.net_vol)
    (fun _ seat => seat.net_vol) hnd', realAcc_eq, List.map_map]
  have hsnd : ((fun p : String × Int => p.2) ∘ fun x : SeatAnalysisData =>
      (x.seat_name, x.net_vol)) = fun x : SeatAnalysisData => x.net_vol := rfl
  rw [hsnd]
  have hpos : (((day.filter (fun seat =>
        seat.seat_name ∈ dedupF (sel.map (fun item => item.seat_name)))).map
      (fun x => x.net_vol)).filter (fun v => 0 < v)) =
      ((day.filter (fun s =>
        s.seat_name ∈ sel.map (fun item => item.seat_name) ∧ 0 < s.net_vol)).map
        (fun s => s.net_vol)) := by
    rw [List.filter_map, List.filter_filter]
    congr 1
    refine List.filter_congr (fun a _ => ?_)
    by_cases hp : 0 < a.net_vol <;>
      by_cases hm : a.seat_name ∈ sel.map (fun item => item.seat_name) <;>
      simp [hp, hm, mem_dedupF, Function.comp]
  have hneg : (((day.filter (fun seat =>
        seat.seat_name ∈ dedupF (sel.map (fun item => item.seat_name)))).map
      (fun x => x.net_vol)).filter (fun v => v < 0)) =
      ((day.filter (fun s =>
        s.seat_name ∈ sel.map (fun item => item.seat_name) ∧ s.net_vol < 0)).map
        (fun s => s.net_vol)) := by
    rw [List.filter_map, List.filter_filter]
    congr 1
    refine List.filter_congr (fun a _ => ?_)
    by_cases hp : a.net_vol < 0 <;>
      by_cases hm : a.seat_name ∈ sel.map (fun item => item.seat_name) <;>
      simp [hp, hm, mem_dedupF, Function.comp]
  rw [hpos, hneg, zero_add, zero_add, List.map_map]
  have habs : ((fun v : Int => |v|) ∘ fun s : SeatAnalysisData => s.net_vol) =
      fun s : SeatAnalysisData => |s.net_vol| := rfl
  rw [habs]

/-- The per-date Real row in terms of the claim's selection and
accumulation formulas. -/
theorem realDayRow_eq (d : String) (day : List SeatAnalysisData)
    (hnd : (day.map (fun s => s.seat_name)).Nodup) :
    realDayRow d day = {
      trade_date := d
      real_long_10 := realLongSpec day (some 10)
      real_long_20 := realLongSpec day (some 20)
      real_long_all := realLongSpec day none
      real_short_10 := realShortSpec day (some 10)
      real_short_20 := realShortSpec day (some 20)
      real_short_all := realShortSpec day none
      real_diff_10 := realLongSpec day (some 10) - realShortSpec day (some 10)
      real_diff_20 := realLongSpec day (some 20) - realShortSpec day (some 20)
      real_diff_all := realLongSpec day none - realShortSpec day none } := by
  simp only [realDayRow]
  rw [realCalcAux day hnd ((List.insertionSort volumeDesc (combinedVolumes day)).take 10),
    realCalcAux day hnd ((List.insertionSort volumeDesc (combinedVolumes day)).take 20),
    realCalcAux day hnd (List.insertionSort volumeDesc (combinedVolumes day))]
  simp only [realLongSpec, realShortSpec, realSelNames]

/-- C1: on seat summaries keyed by (date, seat), the Real indicator series
has one row per trading date of the input, sorted ascending by date, and
each row accumulates, at each breadth, the true net positions of the
distinct seats appearing among the top-N entries of the
long/short-expanded pool. -/
theorem realLongShort_eq (seatData : List SeatAnalysisData)
    (hkey : (seatData.map (fun s => (s.trade_date, s.seat_name))).Nodup) :
    ((calculateRealLongShort seatData).map (fun r => r.trade_date)).Pairwise
      (fun a b => a ≤ b) ∧
    ((calculateRealLongShort seatData).map (fun r => r.trade_date)).Nodup ∧
    (∀ d, d ∈ (calculateRealLongShort seatData).map (fun r => r.trade_date) ↔
      d ∈ seatData.map (fun s => s.trade_date)) ∧
    (∀ r ∈ calculateRealLongShort seatData,
      (r.real_long_10 = realLongSpec (dayRows seatData r.trade_date) (some 10) ∧
       r.real_long_20 = realLongSpec (dayRows seatData r.trade_date) (some 20) ∧
       r.real_long_all = realLongSpec (dayRows seatData r.trade_date) none) ∧
      (r.real_short_10 = realShortSpec (dayRows seatData r.trade_date) (some 10) ∧
       r.real_short_20 = realShortSpec (dayRows seatData r.trade_date) (some 20) ∧
       r.real_short_all = realShortSpec (dayRows seatData r.trade_date) none) ∧
      (r.real_diff_10 = realLongSpec (dayRows seatData r.trade_date) (some 10) -
        realShortSpec (dayRows seatData r.trade_date) (some 10) ∧
       r.real_diff_20 = realLongSpec (dayRows seatData r.trade_date) (some 20) -
        realShortSpec (dayRows seatData r.trade_date) (some 20) ∧
       r.real_diff_all = realLongSpec (dayRows seatData r.trade_date) none -
        realShortSpec (dayRows seatData r.trade_date) none)) := by
  have hrepr : calculateRealLongShort seatData =
      List.insertionSort dateAscReal
        ((dedupF (seatData.map (fun item => item.trade_date))).map
          (fun d => realDayRow d (dayRows seatData d))) := by
    simp only [calculateRealLongShort]
    rw [dateGroups_eq, List.map_map]
    rfl
  have hperm := List.perm_insertionSort dateAscReal
    ((dedupF (seatData.map (fun item => item.trade_date))).map
      (fun d => realDayRow d (dayRows seatData d)))
  refine ⟨?_, ?_, ?_, ?_⟩
  · rw [hrepr]
    exact List.Pairwise.map (fun r : RealLSRow => r.trade_date)
      (fun a b (h : dateAscReal a b) => h) (List.sorted_insertionSort dateAscReal _)
  · rw [hrepr]
    refine ((hperm.map (fun r => r.trade_date)).nodup_iff).mpr ?_
    rw [List.map_map]
    rw [show ((fun r : RealLSRow => r.trade_date) ∘
      fun d => realDayRow d (dayRows seatData d)) = fun d : String => d from rfl,
      List.map_id']
    exact nodup_dedupF _
  · intro d
    rw [hrepr]
    rw [(hperm.map (fun r => r.trade_date)).mem_iff, List.map_map]
    rw [show ((fun r : RealLSRow => r.trade_date) ∘
      fun d => realDayRow d (dayRows seatData d)) = fun d : String => d from rfl,
      List.map_id']
    exact mem_dedupF
  · intro r hr
    rw [hrepr, (List.perm_insertionSort dateAscReal _).mem_iff] at hr
    obtain ⟨d, hd, rfl⟩ := List.mem_map.mp hr
    have hdate : (realDayRow d (dayRows seatData d)).trade_date = d := rfl
    have hnd : ((dayRows seatData d).map (fun s => s.seat_name)).Nodup :=
      names_nodup_of_key_nodup hkey d
    rw [hdate, realDayRow_eq d (dayRows seatData d) hnd]
    exact ⟨⟨rfl, rfl, rfl⟩, ⟨rfl, rfl, rfl⟩, ⟨rfl, rfl, rfl⟩⟩

/-- Seat summaries used by the C1 witness. -/
def ex1 : List SeatAnalysisData :=
  [⟨"d", "cu", "cu", "A", 10, 2, 0, 0, 8, 0⟩,
   ⟨"d", "cu", "cu", "B", 1, 5, 0, 0, -4, 0⟩]

/-- The Real row the code computes on `ex1`. -/
def ex1Row : RealLSRow := ⟨"d", 8, 8, 8, 4, 4, 4, 4, 4, 4⟩

/-- Witness for C1 at a concrete two-seat day. -/
theorem realLongShort_witness :
    (ex1Row.real_long_10 = realLongSpec (dayRows ex1 ex1Row.trade_date) (some 10) ∧
     ex1Row.real_long_20 = realLongSpec (dayRows ex1 ex1Row.trade_date) (some 20) ∧
     ex1Row.real_long_all = realLongSpec (dayRows ex1 ex1Row.trade_date) none) ∧
    (ex1Row.real_short_10 = realShortSpec (dayRows ex1 ex1Row.trade_date) (some 10) ∧
     ex1Row.real_short_20 = realShortSpec (dayRows ex1 ex1Row.trade_date) (some 20) ∧
     ex1Row.real_short_all = realShortSpec (dayRows ex1 ex1Row.trade_date) none) ∧
    (ex1Row.real_diff_10 = realLongSpec (dayRows ex1 ex1Row.trade_date) (some 10) -
      realShortSpec (dayRows ex1 ex1Row.trade_date) (some 10) ∧
     ex1Row.real_diff_20 = realLongSpec (dayRows ex1 ex1Row.trade_date) (some 20) -
      realShortSpec (dayRows ex1 ex1Row.trade_date) (some 20) ∧
     ex1Row.real_diff_all = realLongSpec (dayRows ex1 ex1Row.trade_date) none -
      realShortSpec (dayRows ex1 ex1Row.trade_date) none) :=
  (realLongShort_eq ex1 (by decide)).2.2.2 ex1Row (by decide)

/-! ## Claim C8: the Distribution Generator -/

/-- The (name, magnitude) base of the position distribution: top 10 seats
by `|net_vol|` plus one "其他" bucket summing the remaining magnitudes
(present only when that sum is positive). -/
def posDistBase (seatData : List SeatAnalysisData) (tradeDate : String) :
    List (String × ℚ) :=
  ((List.insertionSort absNetDesc (seatData.filter
      (fun item => item.trade_date = tradeDate))).take 10).map
    (fun seat => (seat.seat_name, (|seat.net_vol| : ℚ))) ++
  (if (List.insertionSort absNetDesc (seatData.filter
        (fun item => item.trade_date = tradeDate))).drop 10 ≠ [] ∧
      0 < (((List.insertionSort absNetDesc (seatData.filter
        (fun item => item.trade_date = tradeDate))).drop 10).map
        (fun seat => (|seat.net_vol| : ℚ))).sum then
    [("其他", (((List.insertionSort absNetDesc (seatData.filter
      (fun item => item.trade_date = tradeDate))).drop 10).map
      (fun seat => (|seat.net_vol| : ℚ))).sum)]
  else [])

/-- The (name, magnitude) base of the change distribution: the top 10
nonzero `|net_chg|` seats — no consolidation bucket. -/
def chgDistBase (seatData : List SeatAnalysisData) (tradeDate : String) :
    List (String × ℚ) :=
  (((List.insertionSort absChgDesc (seatData.filter
      (fun item => item.trade_date = tradeDate))).filter
      (fun seat => seat.net_chg ≠ 0)).take 10).map
    (fun seat => (seat.seat_name, (|seat.net_chg| : ℚ)))

/-- Attach percentage ratios over the reported total to a distribution
base. -/
def withRatios (base : List (String × ℚ)) : List PieEntry :=
  base.map (fun p =>
    { name := p.1
      value := p.2
      ratio := if 0 < (base.map (fun q => q.2)).sum then
          p.2 / (base.map (fun q => q.2)).sum * 100
        else 0 })

theorem chgDistribution_eq (seatData : List SeatAnalysisData) (tradeDate : String) :
    (generatePieChartData seatData tradeDate).chgDistribution =
      (withRatios (chgDistBase seatData tradeDate)).filter (fun e => 1 ≤ e.ratio) := by
  have hv : ∀ l : List PieEntry,
      l.foldl (fun sum item => sum + item.value) 0 =
      (l.map (fun item => item.value)).sum := fun l => by
    rw [foldl_add_map, zero_add]
  simp only [generatePieChartData, hv, withRatios, chgDistBase]
  congr 1
  simp [List.map_map, Function.comp_def]

theorem posDistribution_eq (seatData : List SeatAnalysisData) (tradeDate : String) :
    (generatePieChartData seatData tradeDate).posDistribution =
      (withRatios (posDistBase seatData tradeDate)).filter (fun e => 1 ≤ e.ratio) := by
  have hb : ∀ l : List SeatAnalysisData,
      l.foldl (fun sum seat => sum + (|seat.net_vol| : ℚ)) 0 =
      (l.map (fun seat => (|seat.net_vol| : ℚ))).sum := fun l => by
    rw [foldl_add_map, zero_add]
  have hv : ∀ l : List PieEntry,
      l.foldl (fun sum item => sum + item.value) 0 =
      (l.map (fun item => item.value)).sum := fun l => by
    rw [foldl_add_map, zero_add]
  simp only [generatePieChartData, hb, hv, withRatios, posDistBase]
  congr 1
  by_cases hdrop : (List.insertionSort absNetDesc (seatData.filter
      (fun item => item.trade_date = tradeDate))).drop 10 = []
  · simp only [hdrop, ne_eq, not_true_eq_false, false_and, if_false, List.append_nil]
    simp [List.map_map, Function.comp_def]
  · by_cases hpos : 0 < (((List.insertionSort absNetDesc (seatData.filter
        (fun item => item.trade_date = tradeDate))).drop 10).map
        (fun seat => (|seat.net_vol| : ℚ))).sum
    · simp only [hdrop, hpos, ne_eq, not_false_eq_true, true_and, if_true, if_pos hpos]
      simp [List.map_map, Function.comp_def]
    · simp only [hdrop, hpos, ne_eq, not_false_eq_true, true_and, if_false, if_neg hpos,
        List.append_nil]
      simp [List.map_map, Function.comp_def]

/-- The change distribution as the specification words it: rank the date's
seats by `|net_chg|`, keep the top 10 entries, and consolidate the
remaining entries into one "其他" bucket summing their magnitudes.
This definition follows the specification text, not the code; it is the
comparator for the refutation below. -/
def chgDistributionClaim (seatData : List SeatAnalysisData) (tradeDate : String) :
    List PieEntry :=
  let sorted := List.insertionSort absChgDesc (seatData.filter
    (fun item => item.trade_date = tradeDate))
  let top10 := (sorted.take 10).map (fun seat =>
    ({ name := seat.seat_name, value := (|seat.net_chg| : ℚ), ratio := 0 } : PieEntry))
  let rest := sorted.drop 10
  if rest = [] then top10
  else top10 ++ [{ name := "其他"
                   value := (rest.map (fun seat => (|seat.net_chg| : ℚ))).sum
                   ratio := 0 }]

/-- Eleven seats of one date with distinct nonzero change magnitudes
`20, 15, 12, 11, 10, 9, 8, 7, 5, 3, 1`, already in descending order. -/
def ex8 : List SeatAnalysisData :=
  [ ⟨"d", "cu", "cu", "S1", 0, 0, 0, 0, 20, 20⟩,
    ⟨"d", "cu", "cu", "S2", 0, 0, 0, 0, 15, 15⟩,
    ⟨"d", "cu", "cu", "S3", 0, 0, 0, 0, 12, 12⟩,
    ⟨"d", "cu", "cu", "S4", 0, 0, 0, 0, 11, 11⟩,
    ⟨"d", "cu", "cu", "S5", 0, 0, 0, 0, 10, 10⟩,
    ⟨"d", "cu", "cu", "S6", 0, 0, 0, 0, 9, 9⟩,
    ⟨"d", "cu", "cu", "S7", 0, 0, 0, 0, 8, 8⟩,
    ⟨"d", "cu", "cu", "S8", 0, 0, 0, 0, 7, 7⟩,
    ⟨"d", "cu", "cu", "S9", 0, 0, 0, 0, 5, 5⟩,
    ⟨"d", "cu", "cu", "S10", 0, 0, 0, 0, 3, 3⟩,
    ⟨"d", "cu", "cu", "S11", 0, 0, 0, 0, 1, 1⟩ ]

theorem ex8_filter_all : ex8.filter (fun item => item.trade_date = "d") = ex8 := by decide

theorem ex8_sort_chg : List.insertionSort absChgDesc ex8 = ex8 :=
  List.Sorted.insertionSort_eq (by decide)

theorem chgBase_ex8 : chgDistBase ex8 "d" =
    [("S1", (20 : ℚ)), ("S2", 15), ("S3", 12), ("S4", 11), ("S5", 10),
     ("S6", 9), ("S7", 8), ("S8", 7), ("S9", 5), ("S10", 3)] := by
  simp only [chgDistBase, ex8_filter_all, ex8_sort_chg]
  norm_num [ex8]

/-- The fully evaluated change distribution of `ex8`: the magnitudes sum
to 100, so each ratio equals the magnitude, and every entry survives the
one-percent cut. -/
theorem chgDist_ex8_eval : (generatePieChartData ex8 "d").chgDistribution =
    [⟨"S1", 20, 20⟩, ⟨"S2", 15, 15⟩, ⟨"S3", 12, 12⟩, ⟨"S4", 11, 11⟩, ⟨"S5", 10, 10⟩,
     ⟨"S6", 9, 9⟩, ⟨"S7", 8, 8⟩, ⟨"S8", 7, 7⟩, ⟨"S9", 5, 5⟩, ⟨"S10", 3, 3⟩] := by
  rw [chgDistribution_eq, chgBase_ex8]
  norm_num [withRatios]

/-- **C8 counterexample.** On `ex8` the code's change distribution keeps
only the ten largest nonzero-change seats and drops seat `S11` outright,
while the claimed construction consolidates the remainder into a "其他"
bucket, producing an eleventh entry. -/
theorem pieChart_counterexample :
    ((generatePieChartData ex8 "d").chgDistribution).map (fun e => e.name) =
      ["S1", "S2", "S3", "S4", "S5", "S6", "S7", "S8", "S9", "S10"] ∧
    (chgDistributionClaim ex8 "d").map (fun e => e.name) =
      ["S1", "S2", "S3", "S4", "S5", "S6", "S7", "S8", "S9", "S10", "其他"] := by
  constructor
  · rw [chgDist_ex8_eval]
    rfl
  · simp only [chgDistributionClaim, ex8_filter_all, ex8_sort_chg]
    norm_num [ex8]

/-- **C8** (amended). The position distribution ranks the date's seats by
`|net_vol|`, keeps the top 10 and consolidates the remainder into one
"其他" bucket when the remaining magnitudes sum to a positive value,
attaches percentage ratios over the reported total, and keeps only
entries of ratio at least 1 percent. The change distribution ranks by
`|net_chg|`, drops zero-change seats, keeps at most the top 10 under the
same ratio treatment, and has no consolidation bucket: every one of its
entries is a single seat of the date with nonzero change, and it never
exceeds 10 entries. -/
theorem pieChart_distributions (seatData : List SeatAnalysisData) (tradeDate : String) :
    (generatePieChartData seatData tradeDate).posDistribution =
      (withRatios (posDistBase seatData tradeDate)).filter (fun e => 1 ≤ e.ratio) ∧
    (generatePieChartData seatData tradeDate).chgDistribution =
      (withRatios (chgDistBase seatData tradeDate)).filter (fun e => 1 ≤ e.ratio) ∧
    (generatePieChartData seatData tradeDate).chgDistribution.length ≤ 10 ∧
    ∀ e ∈ (generatePieChartData seatData tradeDate).chgDistribution,
      ∃ s ∈ seatData.filter (fun item => item.trade_date = tradeDate),
        e.name = s.seat_name ∧ e.value = (|s.net_chg| : ℚ) ∧ s.net_chg ≠ 0 := by
  refine ⟨posDistribution_eq seatData tradeDate, chgDistribution_eq seatData tradeDate,
    ?_, ?_⟩
  · rw [chgDistribution_eq]
    calc ((withRatios (chgDistBase seatData tradeDate)).filter
            (fun e => 1 ≤ e.ratio)).length
        ≤ (withRatios (chgDistBase seatData tradeDate)).length :=
          List.length_filter_le _ _
      _ = (chgDistBase seatData tradeDate).length := List.length_map _ _
      _ ≤ 10 := by
          simp only [chgDistBase, List.length_map, List.length_take]
          exact min_le_left _ _
  · intro e he
    rw [chgDistribution_eq] at he
    have he2 := List.mem_of_mem_filter he
    simp only [withRatios, List.mem_map] at he2
    obtain ⟨p, hp, hpe⟩ := he2
    simp only [chgDistBase, List.mem_map] at hp
    obtain ⟨s, hs, hps⟩ := hp
    have hs2 := List.mem_of_mem_take hs
    have hs3 := List.mem_filter.mp hs2
    refine ⟨s, ?_, ?_, ?_, ?_⟩
    · exact (List.perm_insertionSort absChgDesc _).mem_iff.mp hs3.1
    · rw [← hpe, ← hps]
    · rw [← hpe, ← hps]
    · simpa using hs3.2

theorem pieChart_distributions_witness :
    (⟨"S1", 20, 20⟩ : PieEntry) ∈ (generatePieChartData ex8 "d").chgDistribution ∧
    ∃ s ∈ ex8.filter (fun item => item.trade_date = "d"),
      (⟨"S1", 20, 20⟩ : PieEntry).name = s.seat_name ∧
      (⟨"S1", 20, 20⟩ : PieEntry).value = (|s.net_chg| : ℚ) ∧ s.net_chg ≠ 0 := by
  have hmem : (⟨"S1", 20, 20⟩ : PieEntry) ∈ (generatePieChartData ex8 "d").chgDistribution := by
    rw [chgDist_ex8_eval]
    exact List.mem_cons_self _ _
  exact ⟨hmem, (pieChart_distributions ex8 "d").2.2.2 _ hmem⟩

/-! ## Claim C9: Scoring of the Condition Screener -/

/-- The fixed per-condition weight of each condition tag (`score += 10`,
`score += 15`, `score += 12` in `executeFilter`). -/
def condWeight : CondType → Nat
  | .priceCondition => 10
  | .realCompare => 15
  | .netCompare => 15
  | .realExtreme => 12
  | .realDiffExtreme => 12
  | .netExtreme => 12
  | .netDiffExtreme => 12

theorem condList_weight (env : FilterEnv) (params : FilterParams) (commodityId : String)
    (sortedContracts : List WeightedContract) :
    ∀ c ∈ condList env params commodityId sortedContracts, c.2.2 = condWeight c.2.1 := by
  intro c hc
  simp only [condList, List.mem_cons, List.not_mem_nil, or_false] at hc
  rcases hc with h | h | h | h | h | h | h | h | h <;> subst h <;> rfl

/-- The loop body of `executeFilter` over one commodity id. -/
def filterStep (env : FilterEnv) (params : FilterParams)
    (results : List FilterResult) (commodityId : String) : List FilterResult :=
  let commodityContracts := env.weightedContracts.filter
    (fun item => item.commodity_id = commodityId)
  if commodityContracts = [] then results
  else
    let sorted := List.insertionSort dateDescWC commodityContracts
    let mc := evalCommodity env params commodityId sorted
    if mc.1 ≠ [] then
      results ++ [{
        commodity_id := commodityId
        commodity_name := (sorted.headD default).commodity_name
        match_conditions := mc.1
        score := mc.2 }]
    else results

/-- The screening record `executeFilter` appends for one commodity. -/
def commodityResult (env : FilterEnv) (params : FilterParams) (commodityId : String) :
    FilterResult :=
  let sorted := List.insertionSort dateDescWC (env.weightedContracts.filter
    (fun item => item.commodity_id = commodityId))
  let mc := evalCommodity env params commodityId sorted
  { commodity_id := commodityId
    commodity_name := (sorted.headD default).commodity_name
    match_conditions := mc.1
    score := mc.2 }

theorem executeFilter_eq_foldl (env : FilterEnv) (params : FilterParams) :
    executeFilter env params = List.insertionSort scoreDesc
      ((dedupF (env.weightedContracts.map (fun item => item.commodity_id))).foldl
        (filterStep env params) []) := rfl

theorem filterStep_mem (env : FilterEnv) (params : FilterParams) (ids : List String) :
    ∀ (acc : List FilterResult) (r : FilterResult),
      r ∈ ids.foldl (filterStep env params) acc →
      r ∈ acc ∨ ∃ cid ∈ ids,
        (evalCommodity env params cid (List.insertionSort dateDescWC
          (env.weightedContracts.filter (fun item => item.commodity_id = cid)))).1 ≠ [] ∧
        r = commodityResult env params cid := by
  induction ids with
  | nil => exact fun acc r h => Or.inl (by simpa using h)
  | cons id ids ih =>
    intro acc r h
    rw [List.foldl_cons] at h
    rcases ih (filterStep env params acc id) r h with hmem | ⟨cid, hcid, hne, hrr⟩
    · simp only [filterStep] at hmem
      by_cases hempty : env.weightedContracts.filter
          (fun item => item.commodity_id = id) = []
      · rw [if_pos hempty] at hmem
        exact Or.inl hmem
      · rw [if_neg hempty] at hmem
        by_cases hmc : (evalCommodity env params id (List.insertionSort dateDescWC
            (env.weightedContracts.filter (fun item => item.commodity_id = id)))).1 ≠ []
        · rw [if_pos hmc] at hmem
          rcases List.mem_append.mp hmem with hA | hB
          · exact Or.inl hA
          · refine Or.inr ⟨id, List.mem_cons_self id ids, hmc, ?_⟩
            rw [List.mem_singleton.mp hB]
            rfl
        · rw [if_neg hmc] at hmem
          exact Or.inl hmem
    · exact Or.inr ⟨cid, List.mem_cons_of_mem id hcid, hne, hrr⟩

/-- **C9.** The screening results are sorted by score descending; every
result has a nonempty matched-conditions list, that list is exactly the
tags of the satisfied enabled conditions of its commodity in evaluation
order, and its score is the sum of the fixed weights (10 for the price
condition, 15 for each long-short comparison, 12 for each extremum
condition) of those matched conditions.  In particular, when only the
price condition and the real long-short comparison are enabled and both
checks hold, a commodity evaluates to the matched list
`[priceCondition, realCompare]` with score 25. -/
theorem executeFilter_scoring (env : FilterEnv) (params : FilterParams) :
    List.Pairwise scoreDesc (executeFilter env params) ∧
    (∀ r ∈ executeFilter env params,
      r.match_conditions ≠ [] ∧
      r.match_conditions = ((condList env params r.commodity_id
          (List.insertionSort dateDescWC (env.weightedContracts.filter
            (fun item => item.commodity_id = r.commodity_id)))).filter
          (fun c => c.1)).map (fun c => c.2.1) ∧
      r.score = (r.match_conditions.map condWeight).sum) ∧
    (∀ (commodityId : String) (sortedContracts : List WeightedContract),
      params.priceCond.enabled = true →
      params.realCompare.enabled = true →
      params.netCompare.enabled = false →
      params.realLongExtreme.enabled = false →
      params.realShortExtreme.enabled = false →
      params.realDiffExtreme.enabled = false →
      params.netLongExtreme.enabled = false →
      params.netShortExtreme.enabled = false →
      params.netDiffExtreme.enabled = false →
      checkPriceCondition sortedContracts params.priceCond.days params.priceCond.type = true →
      checkRealLongShortCompare env commodityId params.realCompare.longPeriod
        params.realCompare.shortPeriod params.realCompare.operator = true →
      evalCommodity env params commodityId sortedContracts =
        ([CondType.priceCondition, CondType.realCompare], 25)) := by
  refine ⟨?_, ?_, ?_⟩
  · rw [executeFilter_eq_foldl]
    exact List.sorted_insertionSort scoreDesc _
  · intro r hr
    rw [executeFilter_eq_foldl] at hr
    have hr2 := (List.perm_insertionSort scoreDesc _).mem_iff.mp hr
    rcases filterStep_mem env params _ [] r hr2 with h0 | ⟨cid, _, hne, hrr⟩
    · exact absurd h0 (List.not_mem_nil r)
    · subst hrr
      have heval : evalCommodity env params cid (List.insertionSort dateDescWC
          (env.weightedContracts.filter (fun item => item.commodity_id = cid))) =
          (((condList env params cid (List.insertionSort dateDescWC
              (env.weightedContracts.filter (fun item => item.commodity_id = cid)))).filter
              (fun c => c.1)).map (fun c => c.2.1),
           (((condList env params cid (List.insertionSort dateDescWC
              (env.weightedContracts.filter (fun item => item.commodity_id = cid)))).filter
              (fun c => c.1)).map (fun c => c.2.2)).sum) := by
        rw [evalCommodity, evalList_eq]
        simp
      have hproj1 : (commodityResult env params cid).match_conditions =
          (evalCommodity env params cid (List.insertionSort dateDescWC
            (env.weightedContracts.filter (fun item => item.commodity_id = cid)))).1 := rfl
      have hproj2 : (commodityResult env params cid).score =
          (evalCommodity env params cid (List.insertionSort dateDescWC
            (env.weightedContracts.filter (fun item => item.commodity_id = cid)))).2 := rfl
      have hproj3 : (commodityResult env params cid).commodity_id = cid := rfl
      refine ⟨?_, ?_, ?_⟩
      · rw [hproj1]
        exact hne
      · rw [hproj1, hproj3, heval]
      · rw [hproj2, hproj1, heval]
        show _ = (List.map condWeight _).sum
        rw [List.map_map]
        refine congrArg List.sum (List.map_congr_left ?_)
        intro c hcf
        have hw := condList_weight env params cid (List.insertionSort dateDescWC
          (env.weightedContracts.filter (fun item => item.commodity_id = cid))) c
          (List.mem_of_mem_filter hcf)
        simpa [Function.comp] using hw
  · intro commodityId sortedContracts h1 h2 h3 h4 h5 h6 h7 h8 h9 hp hr
    simp [evalCommodity, condList, h1, h2, h3, h4, h5, h6, h7, h8, h9, hp, hr]

/-- A real long-short row making the real comparison hold at breadth 10. -/
def realRow9 : RealLSRow := ⟨"d", 9, 9, 9, 4, 4, 4, 5, 5, 5⟩

/-- Screening data: no weighted contracts, one real row per commodity. -/
def env9 : FilterEnv := ⟨[], fun _ => [realRow9], fun _ => []⟩

/-- Only the price condition and the real comparison are enabled. -/
def params9 : FilterParams :=
  ⟨⟨true, LookbackDays.d5, PriceType.highest⟩,
   ⟨true, Breadth.b10, Breadth.b10, CompareOp.greater⟩,
   ⟨false, Breadth.b10, Breadth.b10, CompareOp.greater⟩,
   ⟨false, Breadth.b10, LookbackDays.d5, MaxMin.maxT⟩,
   ⟨false, Breadth.b10, LookbackDays.d5, MaxMin.maxT⟩,
   ⟨false, Breadth.b10, LookbackDays.d5, MaxMin.maxT⟩,
   ⟨false, Breadth.b10, LookbackDays.d5, MaxMin.maxT⟩,
   ⟨false, Breadth.b10, LookbackDays.d5, MaxMin.maxT⟩,
   ⟨false, Breadth.b10, LookbackDays.d5, MaxMin.maxT⟩⟩

/-- One flat-priced contract of commodity `cu`. -/
def wc9 (d : String) : WeightedContract := ⟨d, "cu", "copper", 1, 1, 1, 1, 1, 0, 0⟩

/-- Five dated contracts, newest first. -/
def contracts9 : List WeightedContract :=
  [wc9 "e", wc9 "d", wc9 "c", wc9 "b", wc9 "a"]

theorem executeFilter_scoring_witness :
    checkPriceCondition contracts9 params9.priceCond.days params9.priceCond.type = true ∧
    checkRealLongShortCompare env9 "cu" params9.realCompare.longPeriod
      params9.realCompare.shortPeriod params9.realCompare.operator = true ∧
    evalCommodity env9 params9 "cu" contracts9 =
      ([CondType.priceCondition, CondType.realCompare], 25) := by
  have hp : checkPriceCondition contracts9 params9.priceCond.days params9.priceCond.type
      = true := by
    simp [checkPriceCondition, contracts9, wc9, listMax, params9, LookbackDays.toNat]
  have hr : checkRealLongShortCompare env9 "cu" params9.realCompare.longPeriod
      params9.realCompare.shortPeriod params9.realCompare.operator = true := by decide
  exact ⟨hp, hr, (executeFilter_scoring env9 params9).2.2 "cu" contracts9 rfl rfl rfl rfl rfl
    rfl rfl rfl rfl hp hr⟩

/-! ## Claim C10: Insufficient History Never Matches, Never Aborts -/

/-- **C10.** When a commodity's materialized history holds fewer records
than an enabled condition's look-back `days`, that condition evaluates to
`false` — the price condition when the contract list is short, each
extremum condition when its selected indicator series is short — and the
insufficient condition does not disturb the evaluation of the other
enabled conditions: the commodity evaluates exactly as if the starved
condition were disabled. -/
theorem insufficientHistory_noMatch (env : FilterEnv) (commodityId : String) :
    (∀ (contracts : List WeightedContract) (days : LookbackDays) (ty : PriceType),
      contracts.length < days.toNat → checkPriceCondition contracts days ty = false) ∧
    (∀ (key : ExtremeKey) (period : Breadth) (days : LookbackDays) (ty : MaxMin),
      extremeDataLen env commodityId key < days.toNat →
      checkExtremeCondition env commodityId key period days ty = false) ∧
    (∀ (params : FilterParams) (sortedContracts : List WeightedContract),
      sortedContracts.length < params.priceCond.days.toNat →
      evalCommodity env params commodityId sortedContracts =
        evalCommodity env { params with
          priceCond := { params.priceCond with enabled := false } }
          commodityId sortedContracts) ∧
    (∀ (params : FilterParams) (sortedContracts : List WeightedContract),
      extremeDataLen env commodityId .realLongK < params.realLongExtreme.days.toNat →
      evalCommodity env params commodityId sortedContracts =
        evalCommodity env { params with
          realLongExtreme := { params.realLongExtreme with enabled := false } }
          commodityId sortedContracts) ∧
    (∀ (params : FilterParams) (sortedContracts : List WeightedContract),
      extremeDataLen env commodityId .realShortK < params.realShortExtreme.days.toNat →
      evalCommodity env params commodityId sortedContracts =
        evalCommodity env { params with
          realShortExtreme := { params.realShortExtreme with enabled := false } }
          commodityId sortedContracts) ∧
    (∀ (params : FilterParams) (sortedContracts : List WeightedContract),
      extremeDataLen env commodityId .realDiffK < params.realDiffExtreme.days.toNat →
      evalCommodity env params commodityId sortedContracts =
        evalCommodity env { params with
          realDiffExtreme := { params.realDiffExtreme with enabled := false } }
          commodityId sortedContracts) ∧
    (∀ (params : FilterParams) (sortedContracts : List WeightedContract),
      extremeDataLen env commodityId .netLongK < params.netLongExtreme.days.toNat →
      evalCommodity env params commodityId sortedContracts =
        evalCommodity env { params with
          netLongExtreme := { params.netLongExtreme with enabled := false } }
          commodityId sortedContracts) ∧
    (∀ (params : FilterParams) (sortedContracts : List WeightedContract),
      extremeDataLen env commodityId .netShortK < params.netShortExtreme.days.toNat →
      evalCommodity env params commodityId sortedContracts =
        evalCommodity env { params with
          netShortExtreme := { params.netShortExtreme with enabled := false } }
          commodityId sortedContracts) ∧
    (∀ (params : FilterParams) (sortedContracts : List WeightedContract),
      extremeDataLen env commodityId .netDiffK < params.netDiffExtreme.days.toNat →
      evalCommodity env params commodityId sortedContracts =
        evalCommodity env { params with
          netDiffExtreme := { params.netDiffExtreme with enabled := false } }
          commodityId sortedContracts) := by
  have hprice : ∀ (contracts : List WeightedContract) (days : LookbackDays) (ty : PriceType),
      contracts.length < days.toNat → checkPriceCondition contracts days ty = false := by
    intro contracts days ty h
    simp only [checkPriceCondition, if_pos h]
  have hext : ∀ (key : ExtremeKey) (period : Breadth) (days : LookbackDays) (ty : MaxMin),
      extremeDataLen env commodityId key < days.toNat →
      checkExtremeCondition env commodityId key period days ty = false := by
    intro key period days ty h
    simp only [checkExtremeCondition, if_pos h]
  refine ⟨hprice, hext, ?_, ?_, ?_, ?_, ?_, ?_, ?_⟩
  · intro params sortedContracts h
    have hc := hprice sortedContracts params.priceCond.days params.priceCond.type h
    simp [evalCommodity, condList, hc]
  · intro params sortedContracts h
    have hc := hext .realLongK params.realLongExtreme.period params.realLongExtreme.days
      params.realLongExtreme.type h
    simp [evalCommodity, condList, hc]
  · intro params sortedContracts h
    have hc := hext .realShortK params.realShortExtreme.period params.realShortExtreme.days
      params.realShortExtreme.type h
    simp [evalCommodity, condList, hc]
  · intro params sortedContracts h
    have hc := hext .realDiffK params.realDiffExtreme.period params.realDiffExtreme.days
      params.realDiffExtreme.type h
    simp [evalCommodity, condList, hc]
  · intro params sortedContracts h
    have hc := hext .netLongK params.netLongExtreme.period params.netLongExtreme.days
      params.netLongExtreme.type h
    simp [evalCommodity, condList, hc]
  · intro params sortedContracts h
    have hc := hext .netShortK params.netShortExtreme.period params.netShortExtreme.days
      params.netShortExtreme.type h
    simp [evalCommodity, condList, hc]
  · intro params sortedContracts h
    have hc := hext .netDiffK params.netDiffExtreme.period params.netDiffExtreme.days
      params.netDiffExtreme.type h
    simp [evalCommodity, condList, hc]

/-- Screening data with entirely empty histories. -/
def env10 : FilterEnv := ⟨[], fun _ => [], fun _ => []⟩

theorem insufficientHistory_noMatch_witness :
    ([] : List WeightedContract).length < LookbackDays.d5.toNat ∧
    checkPriceCondition [] LookbackDays.d5 PriceType.highest = false ∧
    extremeDataLen env10 "cu" ExtremeKey.realLongK < LookbackDays.d5.toNat ∧
    checkExtremeCondition env10 "cu" ExtremeKey.realLongK Breadth.b10 LookbackDays.d5
      MaxMin.maxT = false := by
  refine ⟨by decide, ?_, by decide, ?_⟩
  · exact (insufficientHistory_noMatch env10 "cu").1 [] LookbackDays.d5 PriceType.highest
      (by decide)
  · exact (insufficientHistory_noMatch env10 "cu").2.1 ExtremeKey.realLongK Breadth.b10
      LookbackDays.d5 MaxMin.maxT (by decide)

end SeatAnalysis
